import Mathlib

/-!
Verification of the open-queue message-queue plugin (`src/index.ts`).

The TypeScript module is shallowly embedded: its pure functions become Lean
functions, the per-session maps become association lists, the plugin's event
handlers become pure state transformers, and the `drain` loop — whose only
suspension points are the awaited toast and prompt calls — is modelled both
as a sequential function (no interleaving) and as a small-step machine whose
atomic steps are the code segments between awaits (the process is
single-threaded cooperative, so those segments really are atomic).

Host sends (`client.session.prompt`) are modelled by an oracle
`send : Nat → Bool` giving the outcome of the k-th send; toast calls
(`client.tui.showToast`) are side-effect free for queue state, so the models
only record how many times the "queue empty" notice is emitted.
-/

namespace OpenQueue

/-- Status of a queued message: "queued" | "sending" | "sent". -/
inductive Status
| queued
| sending
| sent
deriving DecidableEq

/-- QueueMode: "immediate" | "hold". -/
inductive QueueMode
| immediate
| hold
deriving DecidableEq

/-- ModelRef: { providerID, modelID }. -/
structure ModelRef where
  providerID : String
  modelID : String
deriving DecidableEq

/-- PromptPart: TextPartInput | FilePartInput | AgentPartInput | SubtaskPartInput.
Text parts carry the optional `metadata` record (modelled as an association
list of boolean-valued keys — the plugin only ever stores `true` under its
marker key) and the optional `synthetic` / `ignored` flags (absent = false). -/
inductive PromptPart
| text (text : String) (metadata : List (String × Bool)) (synthetic : Bool) (ignored : Bool)
| file (url : String) (mime : String) (filename : Option String)
| agent (name : String)
| subtask (prompt : String) (description : Option String) (agentName : Option String)
deriving DecidableEq

/-- Body of a host `Part`: the four recognized variants, or an unrecognized
variant (`default` case of `toPromptPart`, which maps it to null). -/
inductive HostBody
| known (p : PromptPart)
| other
deriving DecidableEq

/-- A host `Part`: common identifier fields plus the variant body. -/
structure Part where
  id : String
  sessionID : String
  messageID : String
  body : HostBody
deriving DecidableEq

/-- Association-list lookup, modelling `map.get(k)` / `record[k]`. -/
def mget {α : Type} (m : List (String × α)) (k : String) : Option α :=
  (m.find? (fun p => p.1 == k)).map (fun p => p.2)

/-- Association-list removal, modelling `map.delete(k)`. -/
def mdel {α : Type} (m : List (String × α)) (k : String) : List (String × α) :=
  m.filter (fun p => !(p.1 == k))

/-- Association-list update, modelling `map.set(k, v)` / `{...m, [k]: v}`. -/
def mset {α : Type} (m : List (String × α)) (k : String) (v : α) : List (String × α) :=
  (k, v) :: mdel m k

/-- Membership in a string set, modelling `set.has(s)`. -/
def scontains (l : List String) (s : String) : Bool :=
  l.contains s

/-- Insertion into a string set, modelling `set.add(s)`. -/
def sadd (l : List String) (s : String) : List String :=
  if scontains l s then l else l ++ [s]

/-- Removal from a string set, modelling `set.delete(s)`. -/
def sdel (l : List String) (s : String) : List String :=
  l.filter (fun x => !(x == s))

/-- `??` on optional values. -/
def oor {α : Type} : Option α → Option α → Option α
| some a, _ => some a
| none, b => b

/-- INTERNAL_METADATA_KEY = "__open_queue_internal". -/
def internalKey : String := "__open_queue_internal"

/-- QUEUED_TEXT_PREFIX = "Queued (will send after current run)". -/
def queuedTextHeader : String := "Queued (will send after current run)"

/-- `toPromptPart` (src/index.ts:53): converts a host part to a queueable
prompt part; the text case copies only the text (no metadata or flags), and
unrecognized variants become null. -/
def toPromptPart (p : Part) : Option PromptPart :=
  match p.body with
  | .known (.text t _ _ _) => some (.text t [] false false)
  | .known (.file u m f) => some (.file u m f)
  | .known (.agent n) => some (.agent n)
  | .known (.subtask pr d a) => some (.subtask pr d a)
  | .other => none

/-- Whether a prompt part is a text part. -/
def isTextPart : PromptPart → Bool
| .text _ _ _ _ => true
| _ => false

/-- Whether a host part is a text part. -/
def isHostText (p : Part) : Bool :=
  match p.body with
  | .known (.text _ _ _ _) => true
  | _ => false

/-- `makePlaceholder` (src/index.ts:83): builds the synthetic "Queued ...; N
pending" text part from the first text part (or the first part), or null when
the part list is empty. -/
def makePlaceholder (parts : List Part) (count : Nat) : Option Part :=
  match oor (parts.find? isHostText) parts.head? with
  | none => none
  | some t =>
    some { id := t.id, sessionID := t.sessionID, messageID := t.messageID,
           body := .known (.text (queuedTextHeader ++ ("; " ++ (toString count ++ " pending")))
                            [] true true) }

/-- Drops leading whitespace characters. -/
def skipWs : List Char → List Char
| [] => []
| c :: cs => if c.isWhitespace then skipWs cs else c :: cs

/-- Collapses each whitespace run into a single space; the flag records
whether the previous character belonged to a run already collapsed. -/
def collapseWsAux : Bool → List Char → List Char
| _, [] => []
| prevWs, c :: cs =>
  if c.isWhitespace then
    if prevWs then collapseWsAux true cs
    else ' ' :: collapseWsAux true cs
  else c :: collapseWsAux false cs

/-- `text.replace(/\s+/g, " ")`, with `Char.isWhitespace` standing in for
`\s`. -/
def collapseWs (l : List Char) : List Char :=
  collapseWsAux false l

/-- `.trim()`: drop leading and trailing whitespace. -/
def trimChars (l : List Char) : List Char :=
  skipWs ((skipWs l.reverse).reverse)

/-- `truncatePreview` (src/index.ts:98): collapse whitespace, trim, and
truncate to 28 characters (25 kept plus an ellipsis); `.slice(0, 25)`
modelled by taking the first 25 characters. -/
def truncatePreview (text : String) : String :=
  let trimmed := String.mk (trimChars (collapseWs text.data))
  if trimmed.data.length ≤ 28 then trimmed
  else String.mk (trimmed.data.take 25) ++ "..."

/-- `extractPreview` (src/index.ts:108): preview from the first text part, or
a bracketed type tag. -/
def extractPreview (parts : List PromptPart) : String :=
  match parts.find? isTextPart with
  | some (.text t _ _ _) => truncatePreview t
  | _ =>
    if parts.any (fun p => match p with | .file _ _ _ => true | _ => false) then "[file]"
    else if parts.any (fun p => match p with | .agent _ => true | _ => false) then "[agent]"
    else if parts.any (fun p => match p with | .subtask _ _ _ => true | _ => false) then "[subtask]"
    else "[message]"

/-- QueuedMessage (src/index.ts:14): one pending or completed outbound turn. -/
structure QueuedMessage where
  sessionID : String
  agent : Option String
  model : Option ModelRef
  system : Option String
  tools : Option (List (String × Bool))
  parts : List PromptPart
  preview : String
  status : Status
deriving DecidableEq

/-- `getPendingCount` (src/index.ts:119): entries whose status is not "sent". -/
def getPendingCount (queue : List QueuedMessage) : Nat :=
  (queue.filter (fun item => !(item.status == .sent))).length

/-- `isInternalMessage` (src/index.ts:145): some text part carries a truthy
value under the internal metadata key. -/
def isInternalMessage (parts : List Part) : Bool :=
  parts.any (fun part =>
    match part.body with
    | .known (.text _ md _ _) => (mget md internalKey).getD false
    | _ => false)

/-- The per-part marking step of `markInternalParts`: set the internal key
in a text part's metadata, leave other parts alone. -/
def markPart : PromptPart → PromptPart
| .text t md syn ign => .text t (mset md internalKey true) syn ign
| p => p

/-- `markInternalParts` (src/index.ts:151): mark every text part's metadata
with the internal key; if no text part exists, prepend a zero-length
synthetic marker text part. -/
def markInternalParts (parts : List PromptPart) : List PromptPart :=
  let hasText := parts.any isTextPart
  let marked := parts.map markPart
  if hasText then marked
  else .text "" (mset [] internalKey true) true true :: marked

/-- The plugin's per-process state (src/index.ts:174): the current mode, the
per-session busy flags, queues, draining set, and last `/queue` command
message identifiers. -/
structure PluginState where
  currentMode : QueueMode
  busyBySession : List (String × Bool)
  queueBySession : List (String × List QueuedMessage)
  draining : List String
  lastQueueCommandBySession : List (String × String)
deriving DecidableEq

/-- The normalized input of a `chat.message` event. -/
structure ChatInput where
  sessionID : String
  messageID : String
  agent : Option String
  model : Option ModelRef
deriving DecidableEq

/-- The in-flight output message of a `chat.message` event. -/
structure ChatOutputMsg where
  agent : Option String
  model : Option ModelRef
  system : Option String
  tools : Option (List (String × Bool))
deriving DecidableEq

/-- The in-flight output of a `chat.message` event: the message plus its
mutable part list. -/
structure ChatOutput where
  message : ChatOutputMsg
  parts : List Part
deriving DecidableEq

/-- The QueuedMessage built by the `chat.message` handler (src/index.ts:359). -/
def mkQueued (input : ChatInput) (out : ChatOutput) (queuedParts : List PromptPart) :
    QueuedMessage :=
  { sessionID := input.sessionID
    agent := oor input.agent out.message.agent
    model := oor input.model out.message.model
    system := out.message.system
    tools := out.message.tools
    parts := queuedParts
    preview := extractPreview queuedParts
    status := .queued }

/-- The `chat.message` handler (src/index.ts:345): in hold mode, for a
non-internal message, if the session is busy, draining, or has a positive
pending count, normalize and enqueue the message and replace the outbound
parts with the placeholder. All of its state mutation happens before its
only await (the swallowed toast), so the handler is one atomic step.
Returns the updated state and the (possibly rewritten) output. -/
def chatMessage (st : PluginState) (input : ChatInput) (out : ChatOutput) :
    PluginState × ChatOutput :=
  if st.currentMode ≠ .hold then (st, out)
  else if isInternalMessage out.parts then (st, out)
  else
    let existingQueue := mget st.queueBySession input.sessionID
    let pendingCount := match existingQueue with
      | some q => getPendingCount q
      | none => 0
    let busy := (mget st.busyBySession input.sessionID).getD false
    let shouldQueue := busy || scontains st.draining input.sessionID || decide (pendingCount > 0)
    if !shouldQueue then (st, out)
    else
      let originalParts := out.parts
      let queuedParts := originalParts.filterMap toPromptPart
      let item := mkQueued input out queuedParts
      -- enqueue: getQueue (creating the entry if absent) then push
      let q' := (mget st.queueBySession input.sessionID).getD [] ++ [item]
      let st' := { st with queueBySession := mset st.queueBySession input.sessionID q' }
      let queueSize := getPendingCount ((mget st'.queueBySession input.sessionID).getD [])
      let out' := match makePlaceholder originalParts queueSize with
        | some ph => { out with parts := [ph] }
        | none => out
      -- trailing showQueueToast: best effort, swallowed, never empty here
      (st', out')

/-- The body of the host send call issued by the drain loop
(src/index.ts:236): agent/model/system/tools plus the internally marked
parts. -/
structure PromptCall where
  agent : Option String
  model : Option ModelRef
  system : Option String
  tools : Option (List (String × Bool))
  parts : List PromptPart
deriving DecidableEq

/-- The `client.session.prompt` body sent for a queued message. -/
def toPromptCall (m : QueuedMessage) : PromptCall :=
  { agent := m.agent, model := m.model, system := m.system, tools := m.tools,
    parts := markInternalParts m.parts }

/-- `queue.find(item => item.status === "queued")` followed by an in-place
status write on the found entry: returns the found message (as it was) and
the queue with that entry's status replaced, or none when no entry is
queued. -/
def markFirstQueued (s : Status) : List QueuedMessage → Option (QueuedMessage × List QueuedMessage)
| [] => none
| m :: ms =>
  if m.status == .queued then some (m, { m with status := s } :: ms)
  else
    match markFirstQueued s ms with
    | none => none
    | some (found, ms') => some (found, m :: ms')

/-- In-place status write on the unique "sending" entry (the drain loop's
`next`): replaces the first sending entry's status. -/
def markTheSending (s : Status) : List QueuedMessage → List QueuedMessage
| [] => []
| m :: ms =>
  if m.status == .sending then { m with status := s } :: ms
  else m :: markTheSending s ms

/-- Accumulated observable effects of one `drain` call: the
`client.session.prompt` bodies in order, the number of times the
"queue empty" toast was emitted, and whether a send failure was propagated. -/
structure DrainLog where
  prompts : List PromptCall
  emptyToasts : Nat
  failed : Bool
deriving DecidableEq

/-- State threaded through the sequential drain loop: the session's queue,
the accumulated log, and the `showedEmptyToast` flag. -/
structure LoopSt where
  queue : List QueuedMessage
  prompts : List PromptCall
  emptyToasts : Nat
  flag : Bool
  failed : Bool
deriving DecidableEq

/-- The `while (true)` body of `drain` (src/index.ts:224), run with no
interleaved admissions. `send k` is the outcome of the k-th
`client.session.prompt` call. Each iteration: find the next queued entry,
mark it sending, show the (never empty: the sending entry is pending)
pre-send toast, send; on success mark it sent, show the post-send toast
(the empty notice iff nothing remains pending) and record
`showedEmptyToast`; on failure revert the entry to queued — restoring the
queue exactly — and propagate, ending the loop. Since success takes the
entry from queued straight to sent and failure restores queued, the
transient "sending" status cancels out here; it is visible in the
small-step machine below. -/
def drainLoop (send : Nat → Bool) : Nat → Nat → LoopSt → LoopSt
| 0, _, st => st
| fuel + 1, k, st =>
  match markFirstQueued .sent st.queue with
  | none => st
  | some (next, qSent) =>
    if send k then
      let pending := getPendingCount qSent
      drainLoop send fuel (k + 1)
        { queue := qSent
          prompts := st.prompts ++ [toPromptCall next]
          emptyToasts := st.emptyToasts + (if pending == 0 then 1 else 0)
          flag := st.flag || pending == 0
          failed := false }
    else
      { st with prompts := st.prompts ++ [toPromptCall next], failed := true }

/-- `drain` (src/index.ts:215) with no interleaved admissions: no-op if the
session is already draining or its queue is missing/empty; otherwise set the
draining flag, run the loop, on normal exit clear the stored queue and show
the forced empty toast unless one was already shown, and always (finally)
release the draining flag. The loop mutates the stored array in place, so on
the failing path the stored queue is the loop's final queue. Fuel
`queue.length` bounds the number of queued entries. -/
def drainP (st : PluginState) (sessionID : String) (send : Nat → Bool) :
    PluginState × DrainLog :=
  if scontains st.draining sessionID then (st, { prompts := [], emptyToasts := 0, failed := false })
  else
    let queue := (mget st.queueBySession sessionID).getD []
    if queue.isEmpty then (st, { prompts := [], emptyToasts := 0, failed := false })
    else
      let dr := sdel (sadd st.draining sessionID) sessionID
      let r := drainLoop send queue.length 0
        { queue := queue, prompts := [], emptyToasts := 0, flag := false, failed := false }
      if r.failed then
        ({ st with queueBySession := mset st.queueBySession sessionID r.queue, draining := dr },
         { prompts := r.prompts, emptyToasts := r.emptyToasts, failed := true })
      else
        ({ st with queueBySession := mset st.queueBySession sessionID [], draining := dr },
         { prompts := r.prompts,
           emptyToasts := r.emptyToasts + (if r.flag then 0 else 1),
           failed := false })

/-- The `action` argument of the `queue` tool. -/
inductive QAction
| hold
| immediate
| status
deriving DecidableEq

/-- Rendering of a mode in the tool's replies. -/
def modeStr : QueueMode → String
| .immediate => "immediate"
| .hold => "hold"

/-- Rendering of a boolean in the tool's replies. -/
def boolStr (b : Bool) : String :=
  if b then "true" else "false"

/-- The `queue` tool's `execute` (src/index.ts:284). `send` is the send
oracle handed to the drain triggered by a granted `immediate` switch; a
failure of that drain would propagate out of `execute`, which the claims do
not touch, so the reply string is returned regardless. -/
def queueToolExecute (st : PluginState) (action : Option QAction)
    (sessionID messageID : String) (send : Nat → Bool) : PluginState × String :=
  let nextAction := action.getD .status
  let queue := (mget st.queueBySession sessionID).getD []
  let queueSize := getPendingCount queue
  let busy := (mget st.busyBySession sessionID).getD false
  match nextAction with
  | .status =>
    (st, "Mode: " ++ modeStr st.currentMode ++ ("\nQueued messages: " ++ toString queueSize
      ++ ("\nSession busy: " ++ boolStr busy)))
  | .immediate =>
    let lastCommand := mget st.lastQueueCommandBySession sessionID
    let fromCommand := lastCommand == some messageID
    if !fromCommand then
      (st, "Ignoring automatic queue release. Use /queue immediate to switch modes."
        ++ ("\nMode: " ++ modeStr st.currentMode)
        ++ ("\nQueued messages: " ++ toString queueSize)
        ++ ("\nSession busy: " ++ boolStr busy))
    else
      let st1 := { st with
        lastQueueCommandBySession := mdel st.lastQueueCommandBySession sessionID,
        currentMode := .immediate }
      ((drainP st1 sessionID send).1, "Message queue mode set to: immediate")
  | .hold =>
    ({ st with currentMode := .hold }, "Message queue mode set to: hold")

/-- The `command.executed` event handler (src/index.ts:318): record the
message identifier of a `/queue` command invocation for its session. -/
def commandExecuted (st : PluginState) (name sessionID messageID : String) : PluginState :=
  if name == "queue" then
    { st with lastQueueCommandBySession := mset st.lastQueueCommandBySession sessionID messageID }
  else st

/-- Where a session's drain coroutine is parked: not running, or suspended at
one of `drain`'s awaits — the pre-send toast, the host send, the post-send
toast, or the final forced empty toast. -/
inductive DrainPC
| idle
| preToast
| prompt
| postToast
| finalToast
deriving DecidableEq

/-- The state of one session under the cooperative scheduler: the plugin
fields that concern this session (mode, busy flag, queue, draining flag)
plus the drain coroutine's position, its `showedEmptyToast` local, and the
count of "queue empty" toast emissions. Sessions are fully independent in
the source (every structure is keyed by session identifier), so one
session's interleavings are modelled without loss. -/
structure MState where
  mode : QueueMode
  busy : Bool
  queue : List QueuedMessage
  draining : Bool
  pc : DrainPC
  flag : Bool
  emptyToasts : Nat
deriving DecidableEq

/-- Events of the cooperative interleaving semantics: host events
(busy/idle, chat messages, mode changes), a drain trigger, and the
resumptions of the drain coroutine's awaits (`promptOk` / `promptFail` being
the two outcomes of the awaited host send). -/
inductive MEvent
| setBusy (b : Bool)
| setMode (m : QueueMode)
| arrival (input : ChatInput) (out : ChatOutput)
| startDrain
| preToastDone
| promptOk
| promptFail
| postToastDone
| finalToastDone
deriving DecidableEq

/-- One atomic step: the synchronous code segment run by an event or by a
resumed await. Each branch is the segment of src/index.ts between two
suspension points; resumption events arriving while the coroutine is parked
elsewhere do not occur and are no-ops. -/
def mstep (s : MState) : MEvent → MState
| .setBusy b => { s with busy := b }
| .setMode m => { s with mode := m }
| .arrival input out =>
  -- the chat.message handler (src/index.ts:345); all its mutation precedes
  -- its only await, and its toast is never the empty notice (the new entry
  -- is pending), modelled faithfully by the conditional increment
  if s.mode ≠ .hold then s
  else if isInternalMessage out.parts then s
  else if s.busy || s.draining || decide (getPendingCount s.queue > 0) then
    let q' := s.queue ++ [mkQueued input out (out.parts.filterMap toPromptPart)]
    { s with queue := q',
             emptyToasts := s.emptyToasts + (if getPendingCount q' == 0 then 1 else 0) }
  else s
| .startDrain =>
  -- drain entry (src/index.ts:215) up to the first suspension
  if s.draining then s
  else if s.queue.isEmpty then s
  else
    match markFirstQueued .sending s.queue with
    | some (_, q') =>
      -- next.status = "sending"; park at the pre-send toast (never empty)
      { s with draining := true, flag := false, queue := q', pc := .preToast }
    | none =>
      -- no queued entry: break, clear the queue, call the forced empty toast
      { s with draining := true, flag := false, queue := [],
               emptyToasts := s.emptyToasts + 1, pc := .finalToast }
| .preToastDone =>
  match s.pc with
  | .preToast => { s with pc := .prompt }
  | _ => s
| .promptOk =>
  match s.pc with
  | .prompt =>
    -- next.status = "sent"; the post-send toast call renders the empty
    -- notice iff nothing is pending at call time
    let q' := markTheSending .sent s.queue
    { s with queue := q',
             emptyToasts := s.emptyToasts + (if getPendingCount q' == 0 then 1 else 0),
             pc := .postToast }
  | _ => s
| .promptFail =>
  match s.pc with
  | .prompt =>
    -- next.status = "queued"; the thrown error skips the clear and the
    -- final toast, and the finally releases the draining flag
    { s with queue := markTheSending .queued s.queue, draining := false, pc := .idle }
  | _ => s
| .postToastDone =>
  match s.pc with
  | .postToast =>
    -- if (getPendingCount(queue) === 0) showedEmptyToast = true — checked
    -- after the await, against the possibly changed queue
    let f := s.flag || getPendingCount s.queue == 0
    (match markFirstQueued .sending s.queue with
     | some (_, q') => { s with flag := f, queue := q', pc := .preToast }
     | none =>
       if f then { s with flag := f, queue := [], draining := false, pc := .idle }
       else { s with flag := f, queue := [],
                     emptyToasts := s.emptyToasts + 1, pc := .finalToast })
  | _ => s
| .finalToastDone =>
  match s.pc with
  | .finalToast => { s with draining := false, pc := .idle }
  | _ => s

/-- The initial per-session state: hold mode (the configuration under which
queuing happens), not busy, empty queue, not draining. -/
def minit : MState :=
  { mode := .hold, busy := false, queue := [], draining := false,
    pc := .idle, flag := false, emptyToasts := 0 }

/-- Run a sequence of events from the initial state. -/
def runM (events : List MEvent) : MState :=
  events.foldl mstep minit

/-- Number of entries with status "sending". -/
def countSending (queue : List QueuedMessage) : Nat :=
  (queue.filter (fun m => m.status == .sending)).length

/-- Number of entries with status "queued". -/
def countQueued (queue : List QueuedMessage) : Nat :=
  (queue.filter (fun m => m.status == .queued)).length

/-- The entries with status "queued", in order. -/
def queuedOf (queue : List QueuedMessage) : List QueuedMessage :=
  queue.filter (fun m => m.status == .queued)

/-- A queue with no in-flight entry. -/
def noSendingB (queue : List QueuedMessage) : Bool :=
  queue.all (fun m => !(m.status == .sending))

/-- The queue with its first `j` queued entries marked sent, positions and
other entries untouched: the net effect of `j` successful sends. -/
def markSentUpTo : List QueuedMessage → Nat → List QueuedMessage
| [], _ => []
| m :: ms, j =>
  if m.status == .queued then
    match j with
    | 0 => m :: ms
    | j + 1 => { m with status := .sent } :: markSentUpTo ms j
  else m :: markSentUpTo ms j

/-- Priority tiers: "low" | "normal" | "high". The source of this
repository snapshot carries no priority field; the tier exists in the spec's
PriorityExtractor (§4.1), modelled below. -/
inductive Priority
| low
| normal
| high
deriving DecidableEq

/-- Case-insensitive character comparison. -/
def lowerEq (a b : Char) : Bool :=
  a.toLower == b.toLower

/-- Case-insensitively strip a literal pattern from the front of the input,
returning the rest on a match. -/
def stripCI : List Char → List Char → Option (List Char)
| [], cs => some cs
| _ :: _, [] => none
| p :: ps, c :: cs => if lowerEq p c then stripCI ps cs else none

/-- The canonical spelling of each tier word. -/
def tierWord : Priority → String
| .low => "low"
| .normal => "normal"
| .high => "high"

/-- Match one of the three tier words case-insensitively. -/
def parseTier (cs : List Char) : Option (Priority × List Char) :=
  match stripCI ("low".data) cs with
  | some rest => some (.low, rest)
  | none =>
    match stripCI ("normal".data) cs with
    | some rest => some (.normal, rest)
    | none =>
      match stripCI ("high".data) cs with
      | some rest => some (.high, rest)
      | none => none

/-- Expect the closing bracket after optional whitespace. -/
def closeBracket (cs : List Char) : Option (List Char) :=
  match skipWs cs with
  | c :: rest => if c = ']' then some rest else none
  | [] => none

/-- Modelled from the spec: the leading bracketed priority directive of
§4.1, `[priority: low|normal|high]`, case-insensitive with optional
surrounding whitespace; the PriorityExtractor component is absent from this
repository snapshot's src. Returns the tier and the remainder (verbatim) on
a match. -/
def parseDirective (cs : List Char) : Option (Priority × List Char) :=
  match stripCI ("[priority:".data) (skipWs cs) with
  | none => none
  | some cs2 =>
    match parseTier (skipWs cs2) with
    | none => none
    | some (t, cs3) =>
      match closeBracket cs3 with
      | none => none
      | some rest => some (t, rest)

/-- Modelled from the spec: the PriorityExtractor of §4.1. Inspect only the
first fragment if it is text; on a leading directive match, return the tier
with the directive stripped and the remainder verbatim; otherwise return
tier normal with the fragments unchanged. -/
def extractPriority (parts : List PromptPart) : Priority × List PromptPart :=
  match parts with
  | PromptPart.text s md syn ign :: rest =>
    (match parseDirective s.data with
     | some (t, remChars) => (t, PromptPart.text (String.mk remChars) md syn ign :: rest)
     | none => (.normal, parts))
  | _ => (.normal, parts)

/-- The tier a queued message's fragments would carry under the spec's
PriorityExtractor. -/
def msgTier (m : QueuedMessage) : Priority :=
  (extractPriority m.parts).1

/-- Rank of a tier for sorting: high before normal before low. -/
def tierRank : Priority → Nat
| .high => 0
| .normal => 1
| .low => 2

/-- Stable insertion of a message into a tier-sorted list. -/
def insertByTier (m : QueuedMessage) : List QueuedMessage → List QueuedMessage
| [] => [m]
| x :: xs =>
  if tierRank (msgTier m) < tierRank (msgTier x) then m :: x :: xs
  else x :: insertByTier m xs

/-- The stable sort on priority tier the claim describes: high before normal
before low, enqueue order preserved within a tier. -/
def stableSortByTier : List QueuedMessage → List QueuedMessage
| [] => []
| m :: ms => insertByTier m (stableSortByTier ms)

/-- The host redelivering one of the engine's prompt parts to the
`chat.message` observer as a host part, fragment content and metadata
preserved (external interface, spec §6; the marker contract of §4.5 relies
on this metadata side channel surviving the round trip). -/
def hostEcho (id sessionID messageID : String) : PromptPart → Part
| .text t md syn ign =>
  { id := id, sessionID := sessionID, messageID := messageID, body := .known (.text t md syn ign) }
| .file u m f =>
  { id := id, sessionID := sessionID, messageID := messageID, body := .known (.file u m f) }
| .agent n =>
  { id := id, sessionID := sessionID, messageID := messageID, body := .known (.agent n) }
| .subtask p d a =>
  { id := id, sessionID := sessionID, messageID := messageID, body := .known (.subtask p d a) }

/-- Invariant of the cooperative machine: the draining flag is set exactly
while the coroutine is parked at one of its awaits, and the queue holds one
"sending" entry while parked at the pre-send toast or the host send and
none otherwise. -/
def MInv (s : MState) : Prop :=
  (s.draining = true ↔ s.pc ≠ DrainPC.idle) ∧
  countSending s.queue =
    (if s.pc = DrainPC.preToast ∨ s.pc = DrainPC.prompt then 1 else 0)

/-- An output message with no optional fields, for concrete runs. -/
def plainMsg : ChatOutputMsg :=
  { agent := none, model := none, system := none, tools := none }

/-- A host text part for concrete runs. -/
def textPart (id sessionID messageID t : String) : Part :=
  { id := id, sessionID := sessionID, messageID := messageID,
    body := .known (.text t [] false false) }

/-- C2 run: hold mode, session idle, not draining, queue never created. -/
def c2st : PluginState :=
  { currentMode := .hold, busyBySession := [], queueBySession := [],
    draining := [], lastQueueCommandBySession := [] }

/-- C2 run: the inbound message. -/
def c2in : ChatInput :=
  { sessionID := "s", messageID := "m1", agent := none, model := none }

/-- C2 run: the in-flight output with one plain text part. -/
def c2out : ChatOutput :=
  { message := plainMsg, parts := [textPart "p1" "s" "m1" "hello"] }

/-- C1 run: hold mode with the session busy, so messages are queued. -/
def c1st0 : PluginState :=
  { currentMode := .hold, busyBySession := [("s", true)], queueBySession := [],
    draining := [], lastQueueCommandBySession := [] }

/-- C1 run: first inbound message. -/
def c1in1 : ChatInput :=
  { sessionID := "s", messageID := "m1", agent := none, model := none }

/-- C1 run: first output, carrying a low-priority directive. -/
def c1out1 : ChatOutput :=
  { message := plainMsg, parts := [textPart "p1" "s" "m1" "[priority: low] alpha"] }

/-- C1 run: second inbound message. -/
def c1in2 : ChatInput :=
  { sessionID := "s", messageID := "m2", agent := none, model := none }

/-- C1 run: second output, carrying a high-priority directive. -/
def c1out2 : ChatOutput :=
  { message := plainMsg, parts := [textPart "p2" "s" "m2" "[priority: high] beta"] }

/-- C1 run: the state after both messages are admitted. -/
def c1st2 : PluginState :=
  (chatMessage (chatMessage c1st0 c1in1 c1out1).1 c1in2 c1out2).1

/-- C1 run: the first queued message. -/
def c1q1 : QueuedMessage :=
  mkQueued c1in1 c1out1 (c1out1.parts.filterMap toPromptPart)

/-- C1 run: the second queued message. -/
def c1q2 : QueuedMessage :=
  mkQueued c1in2 c1out2 (c1out2.parts.filterMap toPromptPart)

/-- C8 run: first inbound message. -/
def c8in1 : ChatInput :=
  { sessionID := "s", messageID := "m1", agent := none, model := none }

/-- C8 run: first output. -/
def c8out1 : ChatOutput :=
  { message := plainMsg, parts := [textPart "p1" "s" "m1" "one"] }

/-- C8 run: second inbound message. -/
def c8in2 : ChatInput :=
  { sessionID := "s", messageID := "m2", agent := none, model := none }

/-- C8 run: second output. -/
def c8out2 : ChatOutput :=
  { message := plainMsg, parts := [textPart "p2" "s" "m2" "two"] }

/-- C8 run: one message queued while busy, a drain started on idle, and a
second message admitted while the drain is parked at the post-send toast —
after its empty-notice content was already rendered, before the
`showedEmptyToast` check runs. -/
def c8trace : List MEvent :=
  [.setBusy true, .arrival c8in1 c8out1, .setBusy false, .startDrain,
   .preToastDone, .promptOk, .arrival c8in2 c8out2, .postToastDone,
   .preToastDone, .promptOk, .postToastDone]

/-- A minimal queued message for concrete runs. -/
def c4msg : QueuedMessage :=
  { sessionID := "s", agent := none, model := none, system := none, tools := none,
    parts := [], preview := "[message]", status := .queued }

/-! ### Helper lemmas -/

theorem mget_mset_self {α : Type} (m : List (String × α)) (k : String) (v : α) :
    mget (mset m k v) k = some v := by
  simp [mget, mset, List.find?]

theorem sdel_sadd (l : List String) (s : String) (h : scontains l s = false) :
    sdel (sadd l s) s = l := by
  have hnot : s ∉ l := by simpa [scontains, List.contains] using h
  have hl : List.filter (fun x => !(x == s)) l = l := by
    apply List.filter_eq_self.mpr
    intro a ha
    simp only [Bool.not_eq_true', beq_eq_false_iff_ne]
    exact fun has => hnot (has ▸ ha)
  have hcond : ¬(scontains l s = true) := by simp [h]
  rw [sadd, if_neg hcond]
  simp [sdel, List.filter_append, hl]

/-! ### Claim C10 -/

/-- Claim C10: invoking drain for a session whose queue is empty or was
never created changes no state and emits no notification — the queue map is
untouched (in particular no entry is created), the draining flag is never
set, no send occurs, and no queue-empty toast is shown. -/
theorem c10_drain_noop (st : PluginState) (sessionID : String) (send : Nat → Bool)
    (h : mget st.queueBySession sessionID = none ∨
         mget st.queueBySession sessionID = some []) :
    drainP st sessionID send = (st, { prompts := [], emptyToasts := 0, failed := false }) := by
  unfold drainP
  by_cases hd : scontains st.draining sessionID
  · simp [hd]
  · rcases h with h | h <;> simp [hd, h]

/-- Witness for C10 at a concrete state with no queue for the session. -/
theorem c10_drain_noop_witness :
    drainP { currentMode := .hold, busyBySession := [], queueBySession := [],
             draining := [], lastQueueCommandBySession := [] } "s" (fun _ => true) =
      ({ currentMode := .hold, busyBySession := [], queueBySession := [],
         draining := [], lastQueueCommandBySession := [] },
       { prompts := [], emptyToasts := 0, failed := false }) :=
  c10_drain_noop _ "s" (fun _ => true) (Or.inl (by decide))

/-! ### Claim C2 -/

/-- Counterexample to claim C2: in hold mode, a non-internal user message
arriving while the session is not busy, not draining, and has no pending
items is NOT intercepted — the handler leaves the state and the outbound
parts untouched and no queue entry is created, so the host receives the
message directly. -/
theorem c2_counterexample :
    c2st.currentMode = QueueMode.hold ∧
    isInternalMessage c2out.parts = false ∧
    chatMessage c2st c2in c2out = (c2st, c2out) ∧
    mget (chatMessage c2st c2in c2out).1.queueBySession "s" = none := by
  decide

/-- Claim C2 (amended): in hold mode a non-internal inbound message is
intercepted and queued if and only if the session is busy, or draining, or
has at least one pending item; otherwise the handler is an identity and the
host receives the message directly. -/
theorem c2_admission_iff (st : PluginState) (input : ChatInput) (out : ChatOutput)
    (hm : st.currentMode = QueueMode.hold)
    (hi : isInternalMessage out.parts = false) :
    (((mget st.busyBySession input.sessionID).getD false
        || scontains st.draining input.sessionID
        || decide (getPendingCount ((mget st.queueBySession input.sessionID).getD []) > 0)) = true →
      mget (chatMessage st input out).1.queueBySession input.sessionID =
        some ((mget st.queueBySession input.sessionID).getD [] ++
          [mkQueued input out (out.parts.filterMap toPromptPart)]))
    ∧ (((mget st.busyBySession input.sessionID).getD false
        || scontains st.draining input.sessionID
        || decide (getPendingCount ((mget st.queueBySession input.sessionID).getD []) > 0)) = false →
      chatMessage st input out = (st, out)) := by
  cases hq : mget st.queueBySession input.sessionID with
  | none =>
    cases hb1 : (mget st.busyBySession input.sessionID).getD false <;>
      cases hb2 : scontains st.draining input.sessionID <;>
      constructor <;> intro hb <;>
      simp_all [chatMessage, hm, hi, hq, mget_mset_self, getPendingCount]
  | some q =>
    cases hb1 : (mget st.busyBySession input.sessionID).getD false <;>
      cases hb2 : scontains st.draining input.sessionID <;>
      cases hp : decide (getPendingCount q > 0) <;>
      constructor <;> intro hb <;>
      simp_all [chatMessage, hm, hi, hq, mget_mset_self]

/-- Witness for the amended C2 at concrete inputs: a busy session queues
the message; the idle empty-queue session forwards it unchanged. -/
theorem c2_admission_iff_witness :
    (mget (chatMessage c1st0 c1in1 c1out1).1.queueBySession "s" =
      some [mkQueued c1in1 c1out1 (c1out1.parts.filterMap toPromptPart)]) ∧
    chatMessage c2st c2in c2out = (c2st, c2out) :=
  ⟨by
    have h := (c2_admission_iff c1st0 c1in1 c1out1 (by decide) (by decide)).1 (by decide)
    simpa using h,
   (c2_admission_iff c2st c2in c2out (by decide) (by decide)).2 (by decide)⟩

/-! ### Claim C9 -/

/-- Claim C9: a message admitted in hold mode whose host part list is empty
is still enqueued — with preview "[message]" since no fragment exists — but
the host-visible outbound parts stay unchanged: `makePlaceholder` has no
template part to build from, so no synthetic placeholder is substituted. -/
theorem c9_empty_parts_admission (st : PluginState) (input : ChatInput) (msg : ChatOutputMsg)
    (hm : st.currentMode = QueueMode.hold)
    (hb : ((mget st.busyBySession input.sessionID).getD false
        || scontains st.draining input.sessionID
        || decide (getPendingCount ((mget st.queueBySession input.sessionID).getD []) > 0)) = true) :
    chatMessage st input { message := msg, parts := [] } =
      ({ st with queueBySession := (mset st.queueBySession input.sessionID
            ((mget st.queueBySession input.sessionID).getD [] ++
              [mkQueued input { message := msg, parts := [] } []])) },
       { message := msg, parts := [] })
    ∧ (mkQueued input { message := msg, parts := [] } []).preview = "[message]" := by
  constructor
  · cases hq : mget st.queueBySession input.sessionID with
    | none =>
      cases hb1 : (mget st.busyBySession input.sessionID).getD false <;>
        cases hb2 : scontains st.draining input.sessionID <;>
        simp_all [chatMessage, hm, hq, isInternalMessage, makePlaceholder, oor,
          getPendingCount]
    | some q =>
      cases hb1 : (mget st.busyBySession input.sessionID).getD false <;>
        cases hb2 : scontains st.draining input.sessionID <;>
        cases hp : decide (getPendingCount q > 0) <;>
        simp_all [chatMessage, hm, hq, isInternalMessage, makePlaceholder, oor]
  · rfl

/-- Witness for C9 at a concrete busy session and empty part list. -/
theorem c9_empty_parts_admission_witness :
    chatMessage c1st0 { sessionID := "s", messageID := "m9", agent := none, model := none }
        { message := plainMsg, parts := [] } =
      ({ c1st0 with queueBySession := (mset c1st0.queueBySession "s"
            [mkQueued { sessionID := "s", messageID := "m9", agent := none, model := none }
              { message := plainMsg, parts := [] } []]) },
       { message := plainMsg, parts := [] })
    ∧ (mkQueued { sessionID := "s", messageID := "m9", agent := none, model := none }
        { message := plainMsg, parts := [] } []).preview = "[message]" := by
  have h := c9_empty_parts_admission c1st0
    { sessionID := "s", messageID := "m9", agent := none, model := none } plainMsg
    (by decide) (by decide)
  simpa using h

/-! ### Claim C5 -/

theorem markPart_of_not_text (p : PromptPart) (h : isTextPart p = false) : markPart p = p := by
  cases p <;> simp_all [markPart, isTextPart]

theorem map_markPart_of_no_text (ps : List PromptPart) (h : ps.any isTextPart = false) :
    ps.map markPart = ps := by
  induction ps with
  | nil => rfl
  | cons p ps ih =>
    simp only [List.any_cons, Bool.or_eq_false_iff] at h
    simp [markPart_of_not_text p h.1, ih h.2]

/-- Claim C5: the DrainEngine's sends always carry the internal marker —
every text fragment of `markInternalParts ps` has the key set, and when no
text fragment exists the zero-length synthetic marker fragment is prepended
to the unchanged fragments — and any message that reaches the `chat.message`
handler carrying the marker (in particular the host's redelivery of a
marked send) is never admitted: the handler changes nothing. -/
theorem c5_internal_marking :
    (∀ (ps : List PromptPart) (p : PromptPart), p ∈ markInternalParts ps →
      ∀ (t : String) (md : List (String × Bool)) (syn ign : Bool),
        p = PromptPart.text t md syn ign → mget md internalKey = some true)
    ∧ (∀ ps : List PromptPart, ps.any isTextPart = false →
        markInternalParts ps = PromptPart.text "" (mset [] internalKey true) true true :: ps)
    ∧ (∀ (ps : List PromptPart) (i s m : String),
        isInternalMessage ((markInternalParts ps).map (hostEcho i s m)) = true)
    ∧ (∀ (st : PluginState) (input : ChatInput) (out : ChatOutput),
        isInternalMessage out.parts = true → chatMessage st input out = (st, out)) := by
  have key : ∀ md : List (String × Bool), mget (mset md internalKey true) internalKey = some true :=
    fun md => mget_mset_self md internalKey true
  refine ⟨?_, ?_, ?_, ?_⟩
  · intro ps p hp t md syn ign hpt
    subst hpt
    by_cases ht : ps.any isTextPart
    · simp only [markInternalParts, ht, if_true] at hp
      obtain ⟨q, _, hq⟩ := List.mem_map.mp hp
      cases q with
      | text t0 md0 s0 i0 =>
        simp only [markPart] at hq
        obtain ⟨_, hmd, _, _⟩ := PromptPart.text.inj hq
        rw [← hmd]
        exact key md0
      | file u m f => simp [markPart] at hq
      | agent n => simp [markPart] at hq
      | subtask a b c => simp [markPart] at hq
    · simp only [markInternalParts, ht, if_false, Bool.false_eq_true] at hp
      rcases List.mem_cons.mp hp with hp | hp
      · obtain ⟨_, hmd, _, _⟩ := PromptPart.text.inj hp.symm
        rw [← hmd]
        exact key []
      · obtain ⟨q, _, hq⟩ := List.mem_map.mp hp
        cases q with
        | text t0 md0 s0 i0 =>
          simp only [markPart] at hq
          obtain ⟨_, hmd, _, _⟩ := PromptPart.text.inj hq
          rw [← hmd]
          exact key md0
        | file u m f => simp [markPart] at hq
        | agent n => simp [markPart] at hq
        | subtask a b c => simp [markPart] at hq
  · intro ps h
    simp [markInternalParts, h, map_markPart_of_no_text ps h]
  · intro ps i s m
    by_cases ht : ps.any isTextPart
    · obtain ⟨q, hqmem, hq⟩ := List.any_eq_true.mp ht
      cases q with
      | text t0 md0 s0 i0 =>
        apply List.any_eq_true.mpr
        refine ⟨hostEcho i s m (markPart (.text t0 md0 s0 i0)), ?_, ?_⟩
        · apply List.mem_map.mpr
          refine ⟨markPart (.text t0 md0 s0 i0), ?_, rfl⟩
          simp only [markInternalParts, ht, if_true]
          exact List.mem_map.mpr ⟨_, hqmem, rfl⟩
        · simp [markPart, hostEcho, key md0]
      | file u m' f => simp [isTextPart] at hq
      | agent n => simp [isTextPart] at hq
      | subtask a b c => simp [isTextPart] at hq
    · simp only [markInternalParts, eq_false_of_ne_true ht, if_false]
      simp [isInternalMessage, hostEcho, key []]
  · intro st input out hi
    unfold chatMessage
    by_cases hm : st.currentMode ≠ QueueMode.hold
    · rw [if_pos hm]
    · rw [if_neg hm, if_pos hi]

/-- Witness for C5 at concrete fragment lists: a marked text fragment's
metadata carries the key; a textless list gets the synthetic marker
prepended; the echoed marked message tests internal; and a marked inbound
message is not admitted. -/
theorem c5_internal_marking_witness :
    mget (mset [] internalKey true) internalKey = some true
    ∧ markInternalParts [PromptPart.file "u" "m" none] =
        PromptPart.text "" (mset [] internalKey true) true true :: [PromptPart.file "u" "m" none]
    ∧ isInternalMessage ((markInternalParts [PromptPart.file "u" "m" none]).map
        (hostEcho "i" "s" "m")) = true
    ∧ chatMessage c2st c2in
        { message := plainMsg,
          parts := [{ id := "p", sessionID := "s", messageID := "m",
                      body := .known (.text "" [(internalKey, true)] true true) }] } =
      (c2st,
       { message := plainMsg,
         parts := [{ id := "p", sessionID := "s", messageID := "m",
                     body := .known (.text "" [(internalKey, true)] true true) }] }) :=
  ⟨c5_internal_marking.1 [PromptPart.text "x" [] false false]
      (PromptPart.text "x" (mset [] internalKey true) false false) (by decide)
      "x" (mset [] internalKey true) false false rfl,
   c5_internal_marking.2.1 [PromptPart.file "u" "m" none] (by decide),
   c5_internal_marking.2.2.1 [PromptPart.file "u" "m" none] "i" "s" "m",
   c5_internal_marking.2.2.2 c2st c2in _ (by decide)⟩

/-! ### Claim C7 -/

/-- Claim C7: a `/queue` command invocation records its message identifier
for the session; a switch to immediate is honored iff the invoking message
identifier equals the recorded one — the record being consumed and the drain
triggered on success — and otherwise is rejected with the diagnostic
reporting the unchanged mode, pending count and busy flag, the state left
untouched; switching to hold and querying status are never gated. -/
theorem c7_mode_guard :
    (∀ (st : PluginState) (s m : String),
      mget (commandExecuted st "queue" s m).lastQueueCommandBySession s = some m)
    ∧ (∀ (st : PluginState) (s m : String) (send : Nat → Bool),
        mget st.lastQueueCommandBySession s = some m →
        queueToolExecute st (some .immediate) s m send =
          ((drainP { st with
              lastQueueCommandBySession := mdel st.lastQueueCommandBySession s,
              currentMode := .immediate } s send).1,
           "Message queue mode set to: immediate"))
    ∧ (∀ (st : PluginState) (s m : String) (send : Nat → Bool),
        ¬ mget st.lastQueueCommandBySession s = some m →
        queueToolExecute st (some .immediate) s m send =
          (st, "Ignoring automatic queue release. Use /queue immediate to switch modes."
            ++ ("\nMode: " ++ modeStr st.currentMode)
            ++ ("\nQueued messages: "
                ++ toString (getPendingCount ((mget st.queueBySession s).getD [])))
            ++ ("\nSession busy: " ++ boolStr ((mget st.busyBySession s).getD false))))
    ∧ (∀ (st : PluginState) (s m : String) (send : Nat → Bool),
        queueToolExecute st (some .hold) s m send =
          ({ st with currentMode := .hold }, "Message queue mode set to: hold"))
    ∧ (∀ (st : PluginState) (s m : String) (send : Nat → Bool),
        queueToolExecute st (some .status) s m send =
          (st, "Mode: " ++ modeStr st.currentMode
            ++ ("\nQueued messages: "
                ++ toString (getPendingCount ((mget st.queueBySession s).getD []))
                ++ ("\nSession busy: " ++ boolStr ((mget st.busyBySession s).getD false))))) := by
  refine ⟨?_, ?_, ?_, ?_, ?_⟩
  · intro st s m
    simp [commandExecuted, mget_mset_self]
  · intro st s m send h
    have hb : (mget st.lastQueueCommandBySession s == some m) = true := by
      simp [h]
    simp [queueToolExecute, hb]
  · intro st s m send h
    have hb : (mget st.lastQueueCommandBySession s == some m) = false := by
      simpa using h
    simp [queueToolExecute, hb]
  · intro st s m send
    simp [queueToolExecute]
  · intro st s m send
    simp [queueToolExecute]

/-- Witness for C7 at concrete states: the recorded identifier gates and
releases the immediate switch as the theorem states. -/
theorem c7_mode_guard_witness :
    mget (commandExecuted c2st "queue" "s" "m7").lastQueueCommandBySession "s" = some "m7"
    ∧ queueToolExecute { c2st with lastQueueCommandBySession := [("s", "m7")] }
        (some .immediate) "s" "m7" (fun _ => true) =
      ((drainP { { c2st with lastQueueCommandBySession := [("s", "m7")] } with
          lastQueueCommandBySession :=
            (mdel ([("s", "m7")] : List (String × String)) "s"),
          currentMode := .immediate } "s" (fun _ => true)).1,
       "Message queue mode set to: immediate")
    ∧ queueToolExecute c2st (some .immediate) "s" "m7" (fun _ => true) =
      (c2st, "Ignoring automatic queue release. Use /queue immediate to switch modes."
        ++ ("\nMode: " ++ modeStr c2st.currentMode)
        ++ ("\nQueued messages: "
            ++ toString (getPendingCount ((mget c2st.queueBySession "s").getD [])))
        ++ ("\nSession busy: " ++ boolStr ((mget c2st.busyBySession "s").getD false)))
    ∧ queueToolExecute c2st (some .hold) "s" "m7" (fun _ => true) =
      ({ c2st with currentMode := .hold }, "Message queue mode set to: hold") :=
  ⟨c7_mode_guard.1 c2st "s" "m7",
   c7_mode_guard.2.1 { c2st with lastQueueCommandBySession := [("s", "m7")] } "s" "m7"
     (fun _ => true) (by decide),
   c7_mode_guard.2.2.1 c2st "s" "m7" (fun _ => true) (by decide),
   c7_mode_guard.2.2.2.1 c2st "s" "m7" (fun _ => true)⟩


/-! ### Drain-loop lemmas -/

@[simp] theorem beq_queued_queued : (Status.queued == Status.queued) = true := rfl

@[simp] theorem beq_queued_sending : (Status.queued == Status.sending) = false := rfl

@[simp] theorem beq_queued_sent : (Status.queued == Status.sent) = false := rfl

@[simp] theorem beq_sending_queued : (Status.sending == Status.queued) = false := rfl

@[simp] theorem beq_sending_sending : (Status.sending == Status.sending) = true := rfl

@[simp] theorem beq_sending_sent : (Status.sending == Status.sent) = false := rfl

@[simp] theorem beq_sent_queued : (Status.sent == Status.queued) = false := rfl

@[simp] theorem beq_sent_sending : (Status.sent == Status.sending) = false := rfl

@[simp] theorem beq_sent_sent : (Status.sent == Status.sent) = true := rfl

theorem pending_cons (a : QueuedMessage) (l : List QueuedMessage) :
    getPendingCount (a :: l) =
      (if a.status = Status.sent then 0 else 1) + getPendingCount l := by
  cases h : a.status <;> simp [getPendingCount, List.filter_cons, h, Nat.add_comm]

theorem countQueued_cons (a : QueuedMessage) (l : List QueuedMessage) :
    countQueued (a :: l) =
      (if a.status = Status.queued then 1 else 0) + countQueued l := by
  cases h : a.status <;> simp [countQueued, List.filter_cons, h, Nat.add_comm]

theorem countSending_cons (a : QueuedMessage) (l : List QueuedMessage) :
    countSending (a :: l) =
      (if a.status = Status.sending then 1 else 0) + countSending l := by
  cases h : a.status <;> simp [countSending, List.filter_cons, h, Nat.add_comm]

theorem queuedOf_cons (a : QueuedMessage) (l : List QueuedMessage) :
    queuedOf (a :: l) =
      if a.status = Status.queued then a :: queuedOf l else queuedOf l := by
  cases h : a.status <;> simp [queuedOf, List.filter_cons, h]

theorem noSendingB_cons (a : QueuedMessage) (l : List QueuedMessage) :
    noSendingB (a :: l) = (!(a.status == Status.sending) && noSendingB l) := by
  simp [noSendingB]

theorem markSentUpTo_zero (q : List QueuedMessage) : markSentUpTo q 0 = q := by
  induction q with
  | nil => rfl
  | cons m ms ih =>
    cases h : m.status <;> simp [markSentUpTo, h, ih]

theorem pending_eq_countQueued (q : List QueuedMessage) (h : noSendingB q = true) :
    getPendingCount q = countQueued q := by
  induction q with
  | nil => rfl
  | cons m ms ih =>
    rw [noSendingB_cons, Bool.and_eq_true] at h
    obtain ⟨h1, h2⟩ := h
    have ih' := ih h2
    rw [pending_cons, countQueued_cons, ih']
    cases hs : m.status with
    | queued => simp
    | sending => rw [hs] at h1; simp at h1
    | sent => simp

theorem countQueued_nil_iff (q : List QueuedMessage) :
    countQueued q = 0 ↔ queuedOf q = [] := by
  unfold countQueued queuedOf
  exact List.length_eq_zero

theorem mfq_none_iff (s : Status) (q : List QueuedMessage) :
    markFirstQueued s q = none ↔ queuedOf q = [] := by
  induction q with
  | nil => simp [markFirstQueued, queuedOf]
  | cons m ms ih =>
    by_cases hm : m.status = Status.queued
    · rw [markFirstQueued, if_pos (by simp [hm]), queuedOf_cons, if_pos hm]
      simp
    · rw [markFirstQueued, if_neg (by simp [hm]), queuedOf_cons, if_neg hm, ← ih]
      cases hc : markFirstQueued s ms with
      | none => simp
      | some pr => simp

theorem mfq_sent_spec (q : List QueuedMessage) :
    ∀ (q' : List QueuedMessage) (m : QueuedMessage),
    markFirstQueued .sent q = some (m, q') →
    m.status = Status.queued
    ∧ queuedOf q = m :: queuedOf q'
    ∧ (noSendingB q = true → noSendingB q' = true)
    ∧ getPendingCount q = getPendingCount q' + 1
    ∧ (∀ j, markSentUpTo q (j + 1) = markSentUpTo q' j) := by
  induction q with
  | nil => intro q' m h; simp [markFirstQueued] at h
  | cons a as ih =>
    intro q' m h
    by_cases ha : a.status = Status.queued
    · rw [markFirstQueued, if_pos (by simp [ha])] at h
      injection h with h'
      injection h' with hm hq'
      subst hm
      subst hq'
      refine ⟨ha, ?_, ?_, ?_, ?_⟩
      · rw [queuedOf_cons, if_pos ha, queuedOf_cons]
        simp
      · intro hns
        rw [noSendingB_cons, Bool.and_eq_true] at hns
        rw [noSendingB_cons, Bool.and_eq_true]
        exact ⟨by simp, hns.2⟩
      · rw [pending_cons, if_neg (by simp [ha]), pending_cons]
        simp [Nat.add_comm]
      · intro j
        simp [markSentUpTo, ha]
    · rw [markFirstQueued, if_neg (by simp [ha])] at h
      cases hr : markFirstQueued Status.sent as with
      | none => rw [hr] at h; simp at h
      | some pr =>
        obtain ⟨f, ms'⟩ := pr
        rw [hr] at h
        injection h with h'
        injection h' with hm hq'
        subst hm
        subst hq'
        obtain ⟨h1, h2, h3, h4, h5⟩ := ih ms' f hr
        refine ⟨h1, ?_, ?_, ?_, ?_⟩
        · rw [queuedOf_cons, if_neg ha, queuedOf_cons, if_neg ha, h2]
        · intro hns
          rw [noSendingB_cons, Bool.and_eq_true] at hns
          rw [noSendingB_cons, Bool.and_eq_true]
          exact ⟨hns.1, h3 hns.2⟩
        · rw [pending_cons, pending_cons, h4]
          omega
        · intro j
          simp only [markSentUpTo]
          rw [if_neg (by simpa using ha), if_neg (by simpa using ha), h5 j]

theorem drainLoop_ok (send : Nat → Bool) :
    ∀ (fuel : Nat) (q : List QueuedMessage) (pr : List PromptCall) (e : Nat) (f : Bool) (k : Nat),
    noSendingB q = true → countQueued q ≤ fuel →
    (∀ i, i < countQueued q → send (k + i) = true) →
    drainLoop send fuel k { queue := q, prompts := pr, emptyToasts := e, flag := f, failed := false } =
      { queue := markSentUpTo q (countQueued q),
        prompts := pr ++ (queuedOf q).map toPromptCall,
        emptyToasts := e + (if countQueued q = 0 then 0 else 1),
        flag := f || decide (0 < countQueued q),
        failed := false } := by
  intro fuel
  induction fuel with
  | zero =>
    intro q pr e f k hns hle hsend
    have hc : countQueued q = 0 := Nat.le_zero.mp hle
    have hq : queuedOf q = [] := (countQueued_nil_iff q).mp hc
    simp [drainLoop, hc, hq, markSentUpTo_zero]
  | succ fuel ih =>
    intro q pr e f k hns hle hsend
    cases hm : markFirstQueued Status.sent q with
    | none =>
      have hq : queuedOf q = [] := (mfq_none_iff _ q).mp hm
      have hc : countQueued q = 0 := (countQueued_nil_iff q).mpr hq
      simp [drainLoop, hm, hc, hq, markSentUpTo_zero]
    | some found =>
      obtain ⟨next, qSent⟩ := found
      obtain ⟨h1, h2, h3, h4, h5⟩ := mfq_sent_spec q qSent next hm
      have hns' : noSendingB qSent = true := h3 hns
      have hcq : countQueued q = countQueued qSent + 1 := by
        have hlen := congrArg List.length h2
        simpa [countQueued, queuedOf] using hlen
      have hsk : send k = true := by
        have := hsend 0 (by omega)
        simpa using this
      have hpend : getPendingCount qSent = countQueued qSent :=
        pending_eq_countQueued qSent hns'
      have hrec := ih qSent (pr ++ [toPromptCall next])
        (e + (if getPendingCount qSent == 0 then 1 else 0))
        (f || (getPendingCount qSent == 0)) (k + 1) hns' (by omega)
        (fun i hi => by
          have hs := hsend (i + 1) (by omega)
          rw [show k + (i + 1) = k + 1 + i by omega] at hs
          exact hs)
      simp only [drainLoop, hm, hsk, if_true]
      rw [hrec]
      rcases Nat.eq_zero_or_pos (countQueued qSent) with hz | hz
      · have hq' : queuedOf qSent = [] := (countQueued_nil_iff qSent).mp hz
        simp [hcq, hz, hpend, h2, h5, List.append_assoc]
      · have hnz : ¬(countQueued qSent = 0) := by omega
        have hbne : (countQueued qSent == 0) = false := by
          simp [Nat.beq_eq, hnz]
        simp [hcq, hpend, hbne, hnz, h2, h5, List.append_assoc, Nat.lt_of_lt_of_le hz (Nat.le_succ _)]
        exact Or.inr hz

theorem drainLoop_fail (send : Nat → Bool) :
    ∀ (j fuel : Nat) (q : List QueuedMessage) (pr : List PromptCall) (e : Nat) (f : Bool) (k : Nat),
    noSendingB q = true → j < countQueued q → countQueued q ≤ fuel →
    (∀ i, i < j → send (k + i) = true) → send (k + j) = false →
    drainLoop send fuel k { queue := q, prompts := pr, emptyToasts := e, flag := f, failed := false } =
      { queue := markSentUpTo q j,
        prompts := pr ++ ((queuedOf q).take (j + 1)).map toPromptCall,
        emptyToasts := e, flag := f, failed := true } := by
  intro j
  induction j with
  | zero =>
    intro fuel q pr e f k hns hj hle hsend hfail
    obtain ⟨fuel, rfl⟩ : ∃ fuel', fuel = fuel' + 1 := by
      cases fuel with
      | zero => omega
      | succ n => exact ⟨n, rfl⟩
    cases hm : markFirstQueued Status.sent q with
    | none =>
      have hq : queuedOf q = [] := (mfq_none_iff _ q).mp hm
      have hc : countQueued q = 0 := (countQueued_nil_iff q).mpr hq
      omega
    | some found =>
      obtain ⟨next, qSent⟩ := found
      obtain ⟨h1, h2, h3, h4, h5⟩ := mfq_sent_spec q qSent next hm
      have hfk : send k = false := by simpa using hfail
      simp [drainLoop, hm, hfk, markSentUpTo_zero, h2]
  | succ j ih =>
    intro fuel q pr e f k hns hj hle hsend hfail
    obtain ⟨fuel, rfl⟩ : ∃ fuel', fuel = fuel' + 1 := by
      cases fuel with
      | zero => omega
      | succ n => exact ⟨n, rfl⟩
    cases hm : markFirstQueued Status.sent q with
    | none =>
      have hq : queuedOf q = [] := (mfq_none_iff _ q).mp hm
      have hc : countQueued q = 0 := (countQueued_nil_iff q).mpr hq
      omega
    | some found =>
      obtain ⟨next, qSent⟩ := found
      obtain ⟨h1, h2, h3, h4, h5⟩ := mfq_sent_spec q qSent next hm
      have hns' : noSendingB qSent = true := h3 hns
      have hcq : countQueued q = countQueued qSent + 1 := by
        have hlen := congrArg List.length h2
        simpa [countQueued, queuedOf] using hlen
      have hsk : send k = true := by
        have := hsend 0 (by omega)
        simpa using this
      have hpend : getPendingCount qSent = countQueued qSent :=
        pending_eq_countQueued qSent hns'
      have hpnz : ¬(getPendingCount qSent = 0) := by omega
      have hbne : (getPendingCount qSent == 0) = false := by
        simp [Nat.beq_eq, hpnz]
      have hrec := ih fuel qSent (pr ++ [toPromptCall next])
        (e + (if getPendingCount qSent == 0 then 1 else 0))
        (f || (getPendingCount qSent == 0)) (k + 1) hns' (by omega) (by omega)
        (fun i hi => by
          have hs := hsend (i + 1) (by omega)
          rw [show k + (i + 1) = k + 1 + i by omega] at hs
          exact hs)
        (by
          rw [show k + 1 + j = k + (j + 1) by omega]
          exact hfail)
      simp only [drainLoop, hm, hsk, if_true]
      rw [hrec]
      simp [hbne, h2, h5, List.append_assoc]

theorem all_queued_facts (q : List QueuedMessage) (h : ∀ m ∈ q, m.status = Status.queued) :
    queuedOf q = q ∧ noSendingB q = true ∧ countQueued q = q.length := by
  have h1 : queuedOf q = q := List.filter_eq_self.mpr (fun a ha => by simp [h a ha])
  have h2 : noSendingB q = true := List.all_eq_true.mpr (fun a ha => by simp [h a ha])
  have h3 : countQueued q = (queuedOf q).length := rfl
  exact ⟨h1, h2, by rw [h3, h1]⟩

/-- A successful drain run: no-op guards passed, every send succeeding — the
stored queue is cleared, the prompts are the queued entries in order, and
the queue-empty notice is emitted exactly once. -/
theorem drainP_success (st : PluginState) (sid : String) (q : List QueuedMessage)
    (send : Nat → Bool)
    (hq : mget st.queueBySession sid = some q)
    (hd : scontains st.draining sid = false)
    (hns : noSendingB q = true)
    (hne : q ≠ [])
    (hsend : ∀ i, send i = true) :
    drainP st sid send =
      ({ st with queueBySession := (mset st.queueBySession sid []) },
       { prompts := (queuedOf q).map toPromptCall, emptyToasts := 1, failed := false }) := by
  have hle : countQueued q ≤ q.length := List.length_filter_le _ q
  have hloop := drainLoop_ok send q.length q [] 0 false 0 hns hle (fun i _ => hsend (0 + i))
  have hdr : sdel (sadd st.draining sid) sid = st.draining := sdel_sadd st.draining sid hd
  have hemp : q.isEmpty = false := by
    cases q with
    | nil => exact absurd rfl hne
    | cons a l => rfl
  unfold drainP
  rw [if_neg (by simp [hd])]
  simp only [hq, Option.getD_some, hemp, Bool.false_eq_true, if_false, hloop, hdr]
  rcases Nat.eq_zero_or_pos (countQueued q) with hz | hz
  · simp [hz]
  · have hnz : ¬(countQueued q = 0) := by omega
    simp [hnz, hz]

/-- A failing drain run: the first `j` sends succeed and the next fails —
those `j` entries stay recorded as sent, the failing entry is back to
queued, the order is untouched, the queue is not cleared, no queue-empty
notice is shown, the failure is propagated, and the draining flag is
released. -/
theorem drainP_failure (st : PluginState) (sid : String) (q : List QueuedMessage)
    (j : Nat) (send : Nat → Bool)
    (hq : mget st.queueBySession sid = some q)
    (hd : scontains st.draining sid = false)
    (hns : noSendingB q = true)
    (hj : j < countQueued q)
    (hsend : ∀ i, i < j → send i = true)
    (hfail : send j = false) :
    drainP st sid send =
      ({ st with queueBySession := (mset st.queueBySession sid (markSentUpTo q j)) },
       { prompts := ((queuedOf q).take (j + 1)).map toPromptCall,
         emptyToasts := 0, failed := true }) := by
  have hle : countQueued q ≤ q.length := List.length_filter_le _ q
  have hloop := drainLoop_fail send j q.length q [] 0 false 0 hns hj hle
    (fun i hi => by simpa using hsend i hi) (by simpa using hfail)
  have hdr : sdel (sadd st.draining sid) sid = st.draining := sdel_sadd st.draining sid hd
  have hemp : q.isEmpty = false := by
    cases q with
    | nil => simp [countQueued, queuedOf] at hj
    | cons a l => rfl
  unfold drainP
  rw [if_neg (by simp [hd])]
  simp only [hq, Option.getD_some, hemp, Bool.false_eq_true, if_false, hloop, hdr]
  simp

/-! ### Claim C1 -/

/-- Counterexample to claim C1: two messages admitted through the real
admission path, the first carrying a low-priority directive and the second a
high-priority one, are drained in plain enqueue order — not in the order of
the stable sort on priority tier (interpreting the tier of a message by the
spec's PriorityExtractor, since the code itself stores no tier at all). -/
theorem c1_counterexample :
    mget c1st2.queueBySession "s" = some [c1q1, c1q2]
    ∧ msgTier c1q1 = Priority.low
    ∧ msgTier c1q2 = Priority.high
    ∧ (drainP c1st2 "s" (fun _ => true)).2.prompts = [toPromptCall c1q1, toPromptCall c1q2]
    ∧ stableSortByTier [c1q1, c1q2] = [c1q2, c1q1]
    ∧ (drainP c1st2 "s" (fun _ => true)).2.prompts ≠
        (stableSortByTier [c1q1, c1q2]).map toPromptCall := by
  decide

/-- Claim C1 (amended): for every sequence of messages admitted to a
session's queue, the drain loop sends them in enqueue order (FIFO); the code
records no priority tier and performs no priority-based reordering. -/
theorem c1_fifo_drain_order (st : PluginState) (sid : String) (q : List QueuedMessage)
    (send : Nat → Bool)
    (hq : mget st.queueBySession sid = some q)
    (hd : scontains st.draining sid = false)
    (hall : ∀ m ∈ q, m.status = Status.queued)
    (hsend : ∀ i, send i = true) :
    (drainP st sid send).2.prompts = q.map toPromptCall
    ∧ (drainP st sid send).2.failed = false := by
  obtain ⟨h1, h2, _⟩ := all_queued_facts q hall
  by_cases hniq : q = []
  · subst hniq
    unfold drainP
    by_cases hds : scontains st.draining sid
    · simp [hds]
    · simp [hds, hq]
  · rw [drainP_success st sid q send hq hd h2 hniq hsend, h1]
    exact ⟨rfl, rfl⟩

/-- Witness for the amended C1 at a one-message queue. -/
theorem c1_fifo_drain_order_witness :
    (drainP { currentMode := .hold, busyBySession := [], queueBySession := [("s", [c4msg])],
              draining := [], lastQueueCommandBySession := [] } "s" (fun _ => true)).2.prompts =
      [c4msg].map toPromptCall
    ∧ (drainP { currentMode := .hold, busyBySession := [], queueBySession := [("s", [c4msg])],
                draining := [], lastQueueCommandBySession := [] } "s" (fun _ => true)).2.failed =
        false :=
  c1_fifo_drain_order _ "s" [c4msg] (fun _ => true) (by decide) (by decide) (by decide)
    (fun _ => rfl)

/-! ### Claim C4 -/

/-- Claim C4: when the awaited host send fails, the in-flight entry's status
is reverted from sending back to queued (the machine's `promptFail` step)
and the drain coroutine stops there with the draining flag released; at the
drain-call level, a run whose (j+1)-th send fails leaves the first j entries
sent and everything else queued in unchanged order, makes no further prompt
call, emits no queue-empty notice, propagates the failure, and releases the
draining flag (the resulting state's draining set is the original one). -/
theorem c4_fail_stop :
    (∀ ms : MState, ms.pc = DrainPC.prompt →
      mstep ms .promptFail =
        { ms with queue := markTheSending .queued ms.queue, draining := false, pc := .idle })
    ∧ (∀ (st : PluginState) (sid : String) (q : List QueuedMessage) (j : Nat)
        (send : Nat → Bool),
        mget st.queueBySession sid = some q →
        scontains st.draining sid = false →
        noSendingB q = true →
        j < countQueued q →
        (∀ i, i < j → send i = true) →
        send j = false →
        drainP st sid send =
          ({ st with queueBySession := (mset st.queueBySession sid (markSentUpTo q j)) },
           { prompts := ((queuedOf q).take (j + 1)).map toPromptCall,
             emptyToasts := 0, failed := true })) := by
  constructor
  · intro ms h
    simp [mstep, h]
  · intro st sid q j send hq hd hns hj hs hf
    exact drainP_failure st sid q j send hq hd hns hj hs hf

/-- Witness for C4: a failing send on a one-message queue reverts the entry
and propagates, and the machine's promptFail step reverts the sending entry. -/
theorem c4_fail_stop_witness :
    mstep { mode := .hold, busy := false, queue := [{ c4msg with status := .sending }],
            draining := true, pc := .prompt, flag := false, emptyToasts := 0 } .promptFail =
      { mode := .hold, busy := false,
        queue := markTheSending .queued [{ c4msg with status := .sending }],
        draining := false, pc := .idle, flag := false, emptyToasts := 0 }
    ∧ drainP { currentMode := .hold, busyBySession := [], queueBySession := [("s", [c4msg])],
               draining := [], lastQueueCommandBySession := [] } "s" (fun _ => false) =
      ({ currentMode := .hold, busyBySession := [],
         queueBySession := (mset [("s", [c4msg])] "s" (markSentUpTo [c4msg] 0)),
         draining := [], lastQueueCommandBySession := [] },
       { prompts := ((queuedOf [c4msg]).take 1).map toPromptCall,
         emptyToasts := 0, failed := true }) :=
  ⟨c4_fail_stop.1 _ rfl,
   c4_fail_stop.2 _ "s" [c4msg] 0 (fun _ => false) (by decide) (by decide) (by decide)
     (by decide) (fun i hi => absurd hi (by omega)) rfl⟩

/-! ### Claim C8 (amended part) -/

/-- Claim C8 (amended): when the drain loop finds no queued message
remaining it clears the entire session queue, sent entries included; in a
drain cycle that completes with no interleaved admission the queue-empty
notification is emitted exactly once — at the final forced notification
unless the last iteration's post-send notification already rendered the
empty state. (An admission interleaved between a post-send notification and
its pending re-check can make the notice appear more than once; see the
counterexample.) -/
theorem c8_empty_notice_once (st : PluginState) (sid : String) (q : List QueuedMessage)
    (send : Nat → Bool)
    (hq : mget st.queueBySession sid = some q)
    (hd : scontains st.draining sid = false)
    (hns : noSendingB q = true)
    (hne : q ≠ [])
    (hsend : ∀ i, send i = true) :
    (drainP st sid send).1.queueBySession = mset st.queueBySession sid []
    ∧ (drainP st sid send).2.emptyToasts = 1
    ∧ (drainP st sid send).2.failed = false := by
  rw [drainP_success st sid q send hq hd hns hne hsend]
  exact ⟨rfl, rfl, rfl⟩

/-- Witness for the amended C8 at a one-message queue. -/
theorem c8_empty_notice_once_witness :
    (drainP { currentMode := .hold, busyBySession := [], queueBySession := [("s", [c4msg])],
              draining := [], lastQueueCommandBySession := [] } "s" (fun _ => true)).1.queueBySession =
      mset [("s", [c4msg])] "s" []
    ∧ (drainP { currentMode := .hold, busyBySession := [], queueBySession := [("s", [c4msg])],
                draining := [], lastQueueCommandBySession := [] } "s"
        (fun _ => true)).2.emptyToasts = 1
    ∧ (drainP { currentMode := .hold, busyBySession := [], queueBySession := [("s", [c4msg])],
                draining := [], lastQueueCommandBySession := [] } "s"
        (fun _ => true)).2.failed = false :=
  c8_empty_notice_once _ "s" [c4msg] (fun _ => true) (by decide) (by decide) (by decide)
    (by decide) (fun _ => rfl)

/-! ### Machine lemmas -/

theorem countSending_append (q1 q2 : List QueuedMessage) :
    countSending (q1 ++ q2) = countSending q1 + countSending q2 := by
  simp [countSending, List.filter_append]

theorem mfq_sending_count (q : List QueuedMessage) :
    ∀ (q' : List QueuedMessage) (m : QueuedMessage),
    markFirstQueued .sending q = some (m, q') →
    countSending q' = countSending q + 1 := by
  induction q with
  | nil => intro q' m h; simp [markFirstQueued] at h
  | cons a l ih =>
    intro q' m h
    by_cases ha : a.status = Status.queued
    · rw [markFirstQueued, if_pos (by simp [ha])] at h
      injection h with h'
      injection h' with hm hq'
      subst hq'
      rw [countSending_cons, countSending_cons]
      simp [ha]
      omega
    · rw [markFirstQueued, if_neg (by simp [ha])] at h
      cases hr : markFirstQueued Status.sending l with
      | none => rw [hr] at h; simp at h
      | some pr =>
        obtain ⟨f, ms'⟩ := pr
        rw [hr] at h
        injection h with h'
        injection h' with hm hq'
        subst hq'
        rw [countSending_cons, countSending_cons, ih ms' f hr]
        omega

theorem mts_count_zero (s : Status) (hs : s ≠ Status.sending) (q : List QueuedMessage)
    (h : countSending q = 1) :
    countSending (markTheSending s q) = 0 := by
  induction q with
  | nil => simp [countSending] at h
  | cons a l ih =>
    by_cases ha : a.status = Status.sending
    · rw [markTheSending, if_pos (by simp [ha])]
      rw [countSending_cons, if_pos ha] at h
      rw [countSending_cons, if_neg hs]
      omega
    · rw [markTheSending, if_neg (by simp [ha])]
      rw [countSending_cons, if_neg ha] at h
      rw [countSending_cons, if_neg ha]
      have := ih (by omega)
      omega

theorem minv_init : MInv minit := by
  constructor
  · simp [minit]
  · simp [minit, countSending]

theorem minv_step (s : MState) (e : MEvent) (h : MInv s) : MInv (mstep s e) := by
  obtain ⟨hd, hc⟩ := h
  cases e with
  | setBusy b => exact ⟨hd, hc⟩
  | setMode m => exact ⟨hd, hc⟩
  | arrival input out =>
    simp only [mstep]
    split
    · exact ⟨hd, hc⟩
    · split
      · exact ⟨hd, hc⟩
      · split
        · refine ⟨hd, ?_⟩
          have hz : countSending [mkQueued input out (out.parts.filterMap toPromptPart)] = 0 :=
            rfl
          show countSending (s.queue ++ [mkQueued input out (out.parts.filterMap toPromptPart)]) =
            (if s.pc = DrainPC.preToast ∨ s.pc = DrainPC.prompt then 1 else 0)
          rw [countSending_append, hz, hc]
          simp
        · exact ⟨hd, hc⟩
  | startDrain =>
    by_cases hdr : s.draining = true
    · simp only [mstep, hdr, if_true]
      exact ⟨hd, hc⟩
    · have hdrf : s.draining = false := by simpa using hdr
      have hpc : s.pc = DrainPC.idle := by
        by_contra hne
        exact hdr (hd.mpr hne)
      have hc0 : countSending s.queue = 0 := by
        rw [hpc] at hc
        simpa using hc
      simp only [mstep, hdrf, Bool.false_eq_true, if_false]
      split
      · exact ⟨hd, hc⟩
      · cases hm : markFirstQueued Status.sending s.queue with
        | none =>
          simp only [hm]
          exact ⟨by simp, by simp [countSending]⟩
        | some pr =>
          obtain ⟨m, q'⟩ := pr
          simp only [hm]
          refine ⟨by simp, ?_⟩
          show countSending q' = (if DrainPC.preToast = DrainPC.preToast ∨
            DrainPC.preToast = DrainPC.prompt then 1 else 0)
          rw [mfq_sending_count s.queue q' m hm, hc0]
          simp
  | preToastDone =>
    cases hpc : s.pc with
    | preToast =>
      simp only [mstep, hpc]
      refine ⟨by simpa [hpc] using hd, ?_⟩
      rw [hpc] at hc
      simpa using hc
    | idle => simpa [mstep, hpc] using ⟨hd, hc⟩
    | prompt => simpa [mstep, hpc] using ⟨hd, hc⟩
    | postToast => simpa [mstep, hpc] using ⟨hd, hc⟩
    | finalToast => simpa [mstep, hpc] using ⟨hd, hc⟩
  | promptOk =>
    cases hpc : s.pc with
    | prompt =>
      simp only [mstep, hpc]
      refine ⟨by simpa [hpc] using hd, ?_⟩
      rw [hpc] at hc
      simp only [if_pos (by simp : DrainPC.prompt = DrainPC.preToast ∨
        DrainPC.prompt = DrainPC.prompt)] at hc
      show countSending (markTheSending .sent s.queue) = (if DrainPC.postToast = DrainPC.preToast ∨
        DrainPC.postToast = DrainPC.prompt then 1 else 0)
      rw [mts_count_zero Status.sent (by simp) s.queue hc]
      simp
    | idle => simpa [mstep, hpc] using ⟨hd, hc⟩
    | preToast => simpa [mstep, hpc] using ⟨hd, hc⟩
    | postToast => simpa [mstep, hpc] using ⟨hd, hc⟩
    | finalToast => simpa [mstep, hpc] using ⟨hd, hc⟩
  | promptFail =>
    cases hpc : s.pc with
    | prompt =>
      simp only [mstep, hpc]
      refine ⟨by simp, ?_⟩
      rw [hpc] at hc
      simp only [if_pos (by simp : DrainPC.prompt = DrainPC.preToast ∨
        DrainPC.prompt = DrainPC.prompt)] at hc
      show countSending (markTheSending .queued s.queue) =
        (if DrainPC.idle = DrainPC.preToast ∨ DrainPC.idle = DrainPC.prompt then 1 else 0)
      rw [mts_count_zero Status.queued (by simp) s.queue hc]
      simp
    | idle => simpa [mstep, hpc] using ⟨hd, hc⟩
    | preToast => simpa [mstep, hpc] using ⟨hd, hc⟩
    | postToast => simpa [mstep, hpc] using ⟨hd, hc⟩
    | finalToast => simpa [mstep, hpc] using ⟨hd, hc⟩
  | postToastDone =>
    cases hpc : s.pc with
    | postToast =>
      have hdt : s.draining = true := hd.mpr (by simp [hpc])
      have hc0 : countSending s.queue = 0 := by
        rw [hpc] at hc
        simpa using hc
      simp only [mstep, hpc]
      cases hm : markFirstQueued Status.sending s.queue with
      | none =>
        simp only [hm]
        split
        · exact ⟨by simp, by simp [countSending]⟩
        · exact ⟨by simp [hdt], by simp [countSending]⟩
      | some pr =>
        obtain ⟨m, q'⟩ := pr
        simp only [hm]
        refine ⟨by simp [hdt], ?_⟩
        show countSending q' = (if DrainPC.preToast = DrainPC.preToast ∨
          DrainPC.preToast = DrainPC.prompt then 1 else 0)
        rw [mfq_sending_count s.queue q' m hm, hc0]
        simp
    | idle => simpa [mstep, hpc] using ⟨hd, hc⟩
    | preToast => simpa [mstep, hpc] using ⟨hd, hc⟩
    | prompt => simpa [mstep, hpc] using ⟨hd, hc⟩
    | finalToast => simpa [mstep, hpc] using ⟨hd, hc⟩
  | finalToastDone =>
    cases hpc : s.pc with
    | finalToast =>
      simp only [mstep, hpc]
      refine ⟨by simp, ?_⟩
      rw [hpc] at hc
      simpa using hc
    | idle => simpa [mstep, hpc] using ⟨hd, hc⟩
    | preToast => simpa [mstep, hpc] using ⟨hd, hc⟩
    | prompt => simpa [mstep, hpc] using ⟨hd, hc⟩
    | postToast => simpa [mstep, hpc] using ⟨hd, hc⟩

theorem minv_run (evs : List MEvent) : MInv (runM evs) := by
  suffices h : ∀ s, MInv s → MInv (List.foldl mstep s evs) from h minit minv_init
  induction evs with
  | nil => intro s hs; exact hs
  | cons e es ih => intro s hs; exact ih (mstep s e) (minv_step s e hs)

/-! ### Claim C3 -/

/-- Claim C3: under every interleaving of admissions, busy transitions,
mode changes, drain triggers and await resumptions, at most one message of
the session has status "sending" at any instant; and a drain request issued
while the session's drain is already in progress is a no-op on the state. -/
theorem c3_single_flight :
    (∀ events : List MEvent, countSending (runM events).queue ≤ 1)
    ∧ (∀ s : MState, s.draining = true → mstep s .startDrain = s) := by
  constructor
  · intro evs
    obtain ⟨-, hc⟩ := minv_run evs
    rw [hc]
    split <;> omega
  · intro s h
    simp [mstep, h]

/-- Witness for C3: a concrete trace keeps at most one in-flight send, and
a drain request on a draining session leaves the state untouched. -/
theorem c3_single_flight_witness :
    countSending (runM [MEvent.setBusy true, MEvent.startDrain]).queue ≤ 1
    ∧ mstep { mode := .hold, busy := false, queue := [c4msg], draining := true,
              pc := .idle, flag := false, emptyToasts := 0 } .startDrain =
        { mode := .hold, busy := false, queue := [c4msg], draining := true,
          pc := .idle, flag := false, emptyToasts := 0 } :=
  ⟨c3_single_flight.1 [MEvent.setBusy true, MEvent.startDrain],
   c3_single_flight.2 _ rfl⟩

/-! ### Claim C8 (counterexample part) -/

/-- Counterexample to claim C8 as stated: in the trace `c8trace` the drain
cycle completes normally (one drain start, no send failure, coroutine back
at idle with the flag released and the queue cleared), yet the queue-empty
notification is emitted twice: the first post-send notification renders the
empty state, then a message admitted during that await makes the
`showedEmptyToast` re-check see a pending item, so the flag stays unset and
the second iteration's post-send notification renders the empty state
again. -/
theorem c8_counterexample :
    (runM c8trace).emptyToasts = 2
    ∧ (runM c8trace).pc = DrainPC.idle
    ∧ (runM c8trace).draining = false
    ∧ (runM c8trace).queue = []
    ∧ c8trace.count MEvent.startDrain = 1
    ∧ c8trace.count MEvent.promptFail = 0 := by
  decide

/-! ### Claim C6 (spec-modelled PriorityExtractor) -/

theorem ws_toLower_self (x : Char) (hx : x.isWhitespace = true) : x.toLower = x := by
  simp [Char.isWhitespace] at hx
  rcases hx with ((h | h) | h) | h <;> subst h <;> decide

theorem not_ws_of_toLower (d t : Char) (hd : d.toLower = t)
    (h1 : t ≠ ' ') (h2 : t ≠ '\t') (h3 : t ≠ '\r') (h4 : t ≠ '\n') :
    d.isWhitespace = false := by
  cases hws : d.isWhitespace with
  | false => rfl
  | true =>
    exfalso
    have hself : d.toLower = d := ws_toLower_self d hws
    rw [hself] at hd
    subst hd
    simp [Char.isWhitespace] at hws
    rcases hws with ((h | h) | h) | h
    · exact h1 h
    · exact h2 h
    · exact h3 h
    · exact h4 h

theorem skipWs_append_ws (l cs : List Char) (h : l.all Char.isWhitespace = true) :
    skipWs (l ++ cs) = skipWs cs := by
  induction l with
  | nil => rfl
  | cons c ct ih =>
    simp only [List.all_cons, Bool.and_eq_true] at h
    simp only [List.cons_append, skipWs, h.1, if_true]
    exact ih h.2

theorem skipWs_cons_of_not_ws (c : Char) (cs : List Char) (h : c.isWhitespace = false) :
    skipWs (c :: cs) = c :: cs := by
  simp [skipWs, h]

theorem stripCI_of_ci (ps : List Char) :
    ∀ (ws cs : List Char), ws.map Char.toLower = ps.map Char.toLower →
    stripCI ps (ws ++ cs) = some cs := by
  induction ps with
  | nil =>
    intro ws cs h
    simp only [List.map_nil, List.map_eq_nil_iff] at h
    subst h
    rfl
  | cons p pt ih =>
    intro ws cs h
    cases ws with
    | nil => simp at h
    | cons w wt =>
      simp only [List.map_cons, List.cons.injEq] at h
      obtain ⟨hw, hwt⟩ := h
      simp only [List.cons_append, stripCI, lowerEq]
      rw [if_pos (by rw [hw]; exact beq_self_eq_true p.toLower)]
      exact ih wt cs hwt

theorem stripCI_head_mismatch (p : Char) (ps : List Char) (w : Char) (ws : List Char)
    (h : ¬p.toLower = w.toLower) : stripCI (p :: ps) (w :: ws) = none := by
  simp [stripCI, lowerEq, h]

theorem map_toLower_cons (w : List Char) (t : Char) (ts : List Char)
    (h : w.map Char.toLower = t :: ts) :
    ∃ c cs, w = c :: cs ∧ c.toLower = t ∧ cs.map Char.toLower = ts := by
  cases w with
  | nil => simp at h
  | cons c cs =>
    simp only [List.map_cons, List.cons.injEq] at h
    exact ⟨c, cs, rfl, h.1, h.2⟩

theorem closeBracket_spec (pad rest : List Char) (h : pad.all Char.isWhitespace = true) :
    closeBracket (pad ++ ']' :: rest) = some rest := by
  unfold closeBracket
  rw [skipWs_append_ws pad _ h, skipWs_cons_of_not_ws _ _ (by decide)]
  simp

theorem parseTier_spec (t : Priority) (tword rest : List Char)
    (h : tword.map Char.toLower = (tierWord t).data.map Char.toLower) :
    parseTier (tword ++ rest) = some (t, rest) := by
  cases t with
  | low =>
    unfold parseTier
    rw [stripCI_of_ci ("low".data) tword rest (by simpa [tierWord] using h)]
  | normal =>
    have h' : tword.map Char.toLower = 'n' :: ("ormal".data.map Char.toLower) := by
      simpa [tierWord] using h
    obtain ⟨c, cs, hw, hc, _⟩ := map_toLower_cons tword 'n' _ h'
    have e1 : stripCI ("low".data) (tword ++ rest) = none := by
      rw [hw, List.cons_append]
      exact stripCI_head_mismatch 'l' _ c _ (by rw [hc]; decide)
    have e2 : stripCI ("normal".data) (tword ++ rest) = some rest :=
      stripCI_of_ci ("normal".data) tword rest (by simpa [tierWord] using h)
    unfold parseTier
    simp only [e1, e2]
  | high =>
    have h' : tword.map Char.toLower = 'h' :: ("igh".data.map Char.toLower) := by
      simpa [tierWord] using h
    obtain ⟨c, cs, hw, hc, _⟩ := map_toLower_cons tword 'h' _ h'
    have e1 : stripCI ("low".data) (tword ++ rest) = none := by
      rw [hw, List.cons_append]
      exact stripCI_head_mismatch 'l' _ c _ (by rw [hc]; decide)
    have e2 : stripCI ("normal".data) (tword ++ rest) = none := by
      rw [hw, List.cons_append]
      exact stripCI_head_mismatch 'n' _ c _ (by rw [hc]; decide)
    have e3 : stripCI ("high".data) (tword ++ rest) = some rest :=
      stripCI_of_ci ("high".data) tword rest (by simpa [tierWord] using h)
    unfold parseTier
    simp only [e1, e2, e3]

theorem tierWord_head (t : Priority) :
    ∃ h0 rest, (tierWord t).data.map Char.toLower = h0 :: rest
      ∧ h0 ≠ ' ' ∧ h0 ≠ '\t' ∧ h0 ≠ '\r' ∧ h0 ≠ '\n' := by
  cases t with
  | low => exact ⟨'l', ['o', 'w'], by decide, by decide, by decide, by decide, by decide⟩
  | normal =>
    exact ⟨'n', ['o', 'r', 'm', 'a', 'l'], by decide, by decide, by decide, by decide, by decide⟩
  | high => exact ⟨'h', ['i', 'g', 'h'], by decide, by decide, by decide, by decide, by decide⟩

theorem parseDirective_spec (ws dword pad1 tword pad2 rest : List Char) (t : Priority)
    (hws : ws.all Char.isWhitespace = true)
    (hp1 : pad1.all Char.isWhitespace = true)
    (hp2 : pad2.all Char.isWhitespace = true)
    (hdw : dword.map Char.toLower = "[priority:".data.map Char.toLower)
    (htw : tword.map Char.toLower = (tierWord t).data.map Char.toLower) :
    parseDirective
        (ws ++ (dword ++ (pad1 ++ (tword ++ (pad2 ++ ']' :: rest))))) =
      some (t, rest) := by
  have hdl : "[priority:".data.map Char.toLower = '[' :: ("priority:".data.map Char.toLower) := by
    decide
  obtain ⟨d, dt, hdword, hd, _⟩ := map_toLower_cons dword '[' _ (hdw.trans hdl)
  have hdnw : d.isWhitespace = false :=
    not_ws_of_toLower d '[' hd (by decide) (by decide) (by decide) (by decide)
  obtain ⟨h0, trest, htl, hn1, hn2, hn3, hn4⟩ := tierWord_head t
  obtain ⟨c, cs, htword, hc, _⟩ := map_toLower_cons tword h0 _ (htw.trans htl)
  have hcnw : c.isWhitespace = false := not_ws_of_toLower c h0 hc hn1 hn2 hn3 hn4
  have e1 : skipWs (ws ++ (dword ++ (pad1 ++ (tword ++ (pad2 ++ ']' :: rest))))) =
      dword ++ (pad1 ++ (tword ++ (pad2 ++ ']' :: rest))) := by
    rw [skipWs_append_ws ws _ hws, hdword, List.cons_append,
      skipWs_cons_of_not_ws d _ hdnw, ← List.cons_append, ← hdword]
  have e2 : stripCI ("[priority:".data)
      (dword ++ (pad1 ++ (tword ++ (pad2 ++ ']' :: rest)))) =
      some (pad1 ++ (tword ++ (pad2 ++ ']' :: rest))) :=
    stripCI_of_ci ("[priority:".data) dword _ hdw
  have e3 : skipWs (pad1 ++ (tword ++ (pad2 ++ ']' :: rest))) =
      tword ++ (pad2 ++ ']' :: rest) := by
    rw [skipWs_append_ws pad1 _ hp1, htword, List.cons_append,
      skipWs_cons_of_not_ws c _ hcnw, ← List.cons_append, ← htword]
  have e4 : parseTier (tword ++ (pad2 ++ ']' :: rest)) = some (t, pad2 ++ ']' :: rest) :=
    parseTier_spec t tword _ htw
  have e5 : closeBracket (pad2 ++ ']' :: rest) = some rest :=
    closeBracket_spec pad2 rest hp2
  unfold parseDirective
  simp only [e1, e2, e3, e4, e5]

theorem skipWs_decomp (cs : List Char) :
    ∃ ws, cs = ws ++ skipWs cs ∧ ws.all Char.isWhitespace = true := by
  induction cs with
  | nil => exact ⟨[], rfl, rfl⟩
  | cons c ct ih =>
    by_cases hc : c.isWhitespace
    · obtain ⟨ws, hws, hall⟩ := ih
      refine ⟨c :: ws, ?_, ?_⟩
      · rw [skipWs, if_pos hc, List.cons_append, ← hws]
      · simp [List.all_cons, hc, hall]
    · refine ⟨[], ?_, rfl⟩
      rw [skipWs, if_neg hc]
      simp

theorem stripCI_sound (ps : List Char) :
    ∀ (cs cs2 : List Char), stripCI ps cs = some cs2 →
    ∃ w, cs = w ++ cs2 ∧ w.map Char.toLower = ps.map Char.toLower := by
  induction ps with
  | nil =>
    intro cs cs2 h
    simp only [stripCI, Option.some.injEq] at h
    exact ⟨[], by simp [h], rfl⟩
  | cons p pt ih =>
    intro cs cs2 h
    cases cs with
    | nil => simp [stripCI] at h
    | cons c ct =>
      rw [stripCI] at h
      by_cases hpc : lowerEq p c = true
      · rw [if_pos hpc] at h
        obtain ⟨w, hw, hmap⟩ := ih ct cs2 h
        refine ⟨c :: w, by simp [hw], ?_⟩
        have hpl : p.toLower = c.toLower := by simpa [lowerEq] using hpc
        simp [List.map_cons, hmap, hpl]
      · rw [if_neg (by simpa using hpc)] at h
        exact absurd h (by simp)

theorem parseTier_sound (cs : List Char) (t : Priority) (cs3 : List Char)
    (h : parseTier cs = some (t, cs3)) :
    ∃ tw, cs = tw ++ cs3 ∧ tw.map Char.toLower = (tierWord t).data.map Char.toLower := by
  unfold parseTier at h
  cases h1 : stripCI ("low".data) cs with
  | some r =>
    simp only [h1, Option.some.injEq, Prod.mk.injEq] at h
    obtain ⟨ht, hr⟩ := h
    subst ht
    rw [hr] at h1
    obtain ⟨w, hw, hm⟩ := stripCI_sound ("low".data) cs cs3 h1
    exact ⟨w, hw, by simpa [tierWord] using hm⟩
  | none =>
    simp only [h1] at h
    cases h2 : stripCI ("normal".data) cs with
    | some r =>
      simp only [h2, Option.some.injEq, Prod.mk.injEq] at h
      obtain ⟨ht, hr⟩ := h
      subst ht
      rw [hr] at h2
      obtain ⟨w, hw, hm⟩ := stripCI_sound ("normal".data) cs cs3 h2
      exact ⟨w, hw, by simpa [tierWord] using hm⟩
    | none =>
      simp only [h2] at h
      cases h3 : stripCI ("high".data) cs with
      | some r =>
        simp only [h3, Option.some.injEq, Prod.mk.injEq] at h
        obtain ⟨ht, hr⟩ := h
        subst ht
        rw [hr] at h3
        obtain ⟨w, hw, hm⟩ := stripCI_sound ("high".data) cs cs3 h3
        exact ⟨w, hw, by simpa [tierWord] using hm⟩
      | none => simp [h3] at h

theorem closeBracket_sound (cs3 rest : List Char) (h : closeBracket cs3 = some rest) :
    ∃ pad, cs3 = pad ++ ']' :: rest ∧ pad.all Char.isWhitespace = true := by
  unfold closeBracket at h
  cases hs : skipWs cs3 with
  | nil => simp [hs] at h
  | cons c r =>
    simp only [hs] at h
    by_cases hc : c = ']'
    · rw [if_pos hc] at h
      injection h with hr
      subst hr
      obtain ⟨pad, hpad, hall⟩ := skipWs_decomp cs3
      rw [hs] at hpad
      subst hc
      exact ⟨pad, hpad, hall⟩
    · rw [if_neg hc] at h
      exact absurd h (by simp)

/-- Inversion of the directive parser: a successful parse exhibits exactly
the decomposition the positive direction describes — leading whitespace, a
case variant of the opening bracket word, padding, a case variant of a tier
word, padding, the closing bracket, and the verbatim remainder. -/
theorem parseDirective_sound (cs : List Char) (t : Priority) (rest : List Char)
    (h : parseDirective cs = some (t, rest)) :
    ∃ ws dword pad1 tword pad2,
      cs = ws ++ (dword ++ (pad1 ++ (tword ++ (pad2 ++ ']' :: rest))))
      ∧ ws.all Char.isWhitespace = true
      ∧ pad1.all Char.isWhitespace = true
      ∧ pad2.all Char.isWhitespace = true
      ∧ dword.map Char.toLower = "[priority:".data.map Char.toLower
      ∧ tword.map Char.toLower = (tierWord t).data.map Char.toLower := by
  unfold parseDirective at h
  cases h1 : stripCI ("[priority:".data) (skipWs cs) with
  | none => simp [h1] at h
  | some cs2 =>
    simp only [h1] at h
    cases h2 : parseTier (skipWs cs2) with
    | none => simp [h2] at h
    | some pr =>
      obtain ⟨t2, cs3⟩ := pr
      simp only [h2] at h
      cases h3 : closeBracket cs3 with
      | none => simp [h3] at h
      | some r =>
        simp only [h3, Option.some.injEq, Prod.mk.injEq] at h
        obtain ⟨ht, hr⟩ := h
        rw [ht] at h2
        rw [hr] at h3
        obtain ⟨ws, hws, hwall⟩ := skipWs_decomp cs
        obtain ⟨dword, hdw, hdmap⟩ := stripCI_sound ("[priority:".data) (skipWs cs) cs2 h1
        obtain ⟨pad1, hp1, hp1all⟩ := skipWs_decomp cs2
        obtain ⟨tword, htw, htmap⟩ := parseTier_sound (skipWs cs2) t cs3 h2
        obtain ⟨pad2, hp2, hp2all⟩ := closeBracket_sound cs3 rest h3
        refine ⟨ws, dword, pad1, tword, pad2, ?_, hwall, hp1all, hp2all, hdmap, htmap⟩
        conv_lhs => rw [hws]
        rw [hdw, hp1, htw, hp2]

theorem data_decomp (ws dword pad1 tword pad2 rest : String) :
    (ws ++ (dword ++ (pad1 ++ (tword ++ (pad2 ++ ("]" ++ rest)))))).data =
      ws.data ++ (dword.data ++ (pad1.data ++ (tword.data ++ (pad2.data ++ ']' :: rest.data)))) := by
  simp [String.data_append]

/-- A concrete input on which the parser fails admits no directive
decomposition at all (the contrapositive of the positive direction). -/
theorem no_decomp_of_parse_none (s : String) (h : parseDirective s.data = none) :
    ¬ ∃ (ws dword pad1 tword pad2 rest : String) (t : Priority),
      s = ws ++ (dword ++ (pad1 ++ (tword ++ (pad2 ++ ("]" ++ rest)))))
      ∧ ws.data.all Char.isWhitespace = true
      ∧ pad1.data.all Char.isWhitespace = true
      ∧ pad2.data.all Char.isWhitespace = true
      ∧ dword.data.map Char.toLower = "[priority:".data.map Char.toLower
      ∧ tword.data.map Char.toLower = (tierWord t).data.map Char.toLower := by
  rintro ⟨ws, dword, pad1, tword, pad2, rest, t, hs, h1, h2, h3, h4, h5⟩
  have hsome : parseDirective s.data = some (t, rest.data) := by
    rw [hs, data_decomp]
    exact parseDirective_spec ws.data dword.data pad1.data tword.data pad2.data rest.data t
      h1 h2 h3 h4 h5
  rw [h] at hsome
  exact Option.noConfusion hsome

/-- Claim C6: the PriorityExtractor contract — absent from this snapshot's
src and modelled from the spec, section 4.1. A first text fragment that
decomposes as a leading case-insensitive bracketed priority directive
(optional surrounding whitespace) yields that tier with the directive
stripped and the remainder verbatim, the other fragments untouched; every
other input — an empty fragment list, a non-text first fragment, or a
first text fragment admitting no such leading decomposition (covering
malformed directives and mid-string directives alike) — yields tier normal
with the fragments unchanged. -/
theorem c6_priority_extractor :
    (∀ (ws dword pad1 tword pad2 rest : String) (md : List (String × Bool)) (syn ign : Bool)
       (ps : List PromptPart) (t : Priority),
      ws.data.all Char.isWhitespace = true →
      pad1.data.all Char.isWhitespace = true →
      pad2.data.all Char.isWhitespace = true →
      dword.data.map Char.toLower = "[priority:".data.map Char.toLower →
      tword.data.map Char.toLower = (tierWord t).data.map Char.toLower →
      extractPriority
          (PromptPart.text (ws ++ (dword ++ (pad1 ++ (tword ++ (pad2 ++ ("]" ++ rest))))))
            md syn ign :: ps) =
        (t, PromptPart.text rest md syn ign :: ps))
    ∧ extractPriority [] = (Priority.normal, [])
    ∧ (∀ (p : PromptPart) (ps : List PromptPart), isTextPart p = false →
        extractPriority (p :: ps) = (Priority.normal, p :: ps))
    ∧ (∀ (s : String) (md : List (String × Bool)) (syn ign : Bool) (ps : List PromptPart),
        (¬ ∃ (ws dword pad1 tword pad2 rest : String) (t : Priority),
          s = ws ++ (dword ++ (pad1 ++ (tword ++ (pad2 ++ ("]" ++ rest)))))
          ∧ ws.data.all Char.isWhitespace = true
          ∧ pad1.data.all Char.isWhitespace = true
          ∧ pad2.data.all Char.isWhitespace = true
          ∧ dword.data.map Char.toLower = "[priority:".data.map Char.toLower
          ∧ tword.data.map Char.toLower = (tierWord t).data.map Char.toLower) →
        extractPriority (PromptPart.text s md syn ign :: ps) =
          (Priority.normal, PromptPart.text s md syn ign :: ps)) := by
  refine ⟨?_, rfl, ?_, ?_⟩
  · intro ws dword pad1 tword pad2 rest md syn ign ps t hws hp1 hp2 hdw htw
    have hspec := parseDirective_spec ws.data dword.data pad1.data tword.data pad2.data
      rest.data t hws hp1 hp2 hdw htw
    simp only [extractPriority, data_decomp, hspec]
  · intro p ps h
    cases p with
    | text a b c d => simp [isTextPart] at h
    | file u m f => rfl
    | agent n => rfl
    | subtask a b c => rfl
  · intro s md syn ign ps hno
    cases hp : parseDirective s.data with
    | none => simp only [extractPriority, hp]
    | some pr =>
      obtain ⟨t, restc⟩ := pr
      exfalso
      obtain ⟨wsc, dwc, p1c, twc, p2c, hdec, a1, a2, a3, a4, a5⟩ :=
        parseDirective_sound s.data t restc hp
      apply hno
      refine ⟨String.mk wsc, String.mk dwc, String.mk p1c, String.mk twc, String.mk p2c,
        String.mk restc, t, ?_, a1, a2, a3, a4, a5⟩
      have hR : (String.mk wsc ++ (String.mk dwc ++ (String.mk p1c ++ (String.mk twc ++
          (String.mk p2c ++ ("]" ++ String.mk restc)))))).data =
          wsc ++ (dwc ++ (p1c ++ (twc ++ (p2c ++ ']' :: restc)))) := by
        simp [String.data_append]
      have hsd : s.data = (String.mk wsc ++ (String.mk dwc ++ (String.mk p1c ++ (String.mk twc ++
          (String.mk p2c ++ ("]" ++ String.mk restc)))))).data := by
        rw [hR]
        exact hdec
      calc s = String.mk s.data := rfl
      _ = _ := by rw [hsd]

/-- Witness for C6 at concrete fragment lists: a case-variant padded
directive is extracted and stripped; an empty list, a non-text head, a
mid-string directive, a malformed tier word inside the brackets, and a
bracket-prefixed mid-string directive are all untouched. -/
theorem c6_priority_extractor_witness :
    extractPriority
        [PromptPart.text (" " ++ ("[PRIORITY:" ++ ("  " ++ ("High" ++ ("" ++ ("]" ++ " fix now"))))))
          [] false false] =
      (Priority.high, [PromptPart.text " fix now" [] false false])
    ∧ extractPriority [] = (Priority.normal, [])
    ∧ extractPriority [PromptPart.file "u" "m" none] =
        (Priority.normal, [PromptPart.file "u" "m" none])
    ∧ extractPriority [PromptPart.text "fix [priority: high] now" [] false false] =
        (Priority.normal, [PromptPart.text "fix [priority: high] now" [] false false])
    ∧ extractPriority [PromptPart.text "[priority: urgent] x" [] false false] =
        (Priority.normal, [PromptPart.text "[priority: urgent] x" [] false false])
    ∧ extractPriority [PromptPart.text "[note] [priority: high] x" [] false false] =
        (Priority.normal, [PromptPart.text "[note] [priority: high] x" [] false false]) :=
  ⟨c6_priority_extractor.1 " " "[PRIORITY:" "  " "High" "" " fix now" [] false false []
      Priority.high (by decide) (by decide) (by decide) (by decide) (by decide),
   c6_priority_extractor.2.1,
   c6_priority_extractor.2.2.1 (PromptPart.file "u" "m" none) [] (by decide),
   c6_priority_extractor.2.2.2 "fix [priority: high] now" [] false false []
     (no_decomp_of_parse_none "fix [priority: high] now" (by decide)),
   c6_priority_extractor.2.2.2 "[priority: urgent] x" [] false false []
     (no_decomp_of_parse_none "[priority: urgent] x" (by decide)),
   c6_priority_extractor.2.2.2 "[note] [priority: high] x" [] false false []
     (no_decomp_of_parse_none "[note] [priority: high] x" (by decide))⟩

end OpenQueue
